import Mathlib

/-!
# Verification of the DooMandDastardlies core against its specification

Shallow embedding, in Lean 4, of the parts of the repository that the
specification's claims are about:

* `src/src/lib/ratelimit.ts`         — `RateLimiter` (sliding window)
* `src/src/lib/store.ts` / `part_004` — `MemoryRollStore` (TTL map)
* `src/src/lib/redis-roll-store.ts`  — `RedisRollStore` (native expiry + Lua claim)
* `part_006` (`timer-store.ts`)      — `MemoryTimerStore` (interval driver)
* `part_003` (`redis-timer-store.ts`)— `RedisTimerStore` (driver + shared metadata)
* `part_007` (`verify.ts`)           — `verifyDiscordSignature`

JavaScript `Map` objects are embedded as association lists with
key-replacing insertion (`mapSet`), `Date.now()` timestamps as `Int`
milliseconds, and every method that mutates `this` as an explicit
state-passing function `State → result × State`.  Timer drivers
(`setInterval` callbacks) are embedded as one step function per tick,
run at the ideal firing times `startedAt + k·intervalMs`.
-/

namespace DnD

/-! ## JavaScript `Map` embedding

An ECMAScript `Map` keeps insertion order; `set` replaces the value of an
existing key in place and appends fresh keys at the end, `delete` removes
the single entry for the key. -/

def mapLookup {α β : Type} [DecidableEq α] (m : List (α × β)) (k : α) : Option β :=
  match m with
  | [] => none
  | (k', v) :: rest => if k' = k then some v else mapLookup rest k

def mapSet {α β : Type} [DecidableEq α] (m : List (α × β)) (k : α) (v : β) :
    List (α × β) :=
  match m with
  | [] => [(k, v)]
  | (k', w) :: rest =>
      if k' = k then (k', v) :: rest else (k', w) :: mapSet rest k v

def mapDelete {α β : Type} [DecidableEq α] (m : List (α × β)) (k : α) :
    List (α × β) :=
  match m with
  | [] => []
  | (k', w) :: rest =>
      if k' = k then rest else (k', w) :: mapDelete rest k

theorem mapLookup_mapSet_self {α β : Type} [DecidableEq α]
    (m : List (α × β)) (k : α) (v : β) : mapLookup (mapSet m k v) k = some v := by
  induction m with
  | nil => simp [mapSet, mapLookup]
  | cons hd tl ih =>
      obtain ⟨k', w⟩ := hd
      by_cases h : k' = k <;> simp [mapSet, mapLookup, h, ih]

theorem mapLookup_mapSet_ne {α β : Type} [DecidableEq α]
    (m : List (α × β)) (k k' : α) (v : β) (h : k ≠ k') :
    mapLookup (mapSet m k v) k' = mapLookup m k' := by
  induction m with
  | nil => simp [mapSet, mapLookup, h]
  | cons hd tl ih =>
      obtain ⟨k₀, w⟩ := hd
      by_cases h0 : k₀ = k
      · subst h0
        simp [mapSet, mapLookup, h]
      · simp [mapSet, mapLookup, h0, ih]

/-- The representation invariant of an ECMAScript `Map`: each key is bound
at most once.  All states produced by the embedded operations preserve it. -/
def mapWF {α β : Type} (m : List (α × β)) : Prop := (m.map Prod.fst).Nodup

instance {α β : Type} [DecidableEq α] (m : List (α × β)) : Decidable (mapWF m) := by
  unfold mapWF; infer_instance

theorem mapLookup_eq_none_of_not_mem {α β : Type} [DecidableEq α]
    (m : List (α × β)) (k : α) (h : k ∉ m.map Prod.fst) : mapLookup m k = none := by
  induction m with
  | nil => rfl
  | cons hd tl ih =>
      obtain ⟨k', w⟩ := hd
      simp only [List.map_cons, List.mem_cons] at h
      push_neg at h
      have hne : ¬ k' = k := fun hh => h.1 hh.symm
      simp only [mapLookup, if_neg hne]
      exact ih h.2

theorem mapLookup_mapDelete_self {α β : Type} [DecidableEq α]
    (m : List (α × β)) (k : α) (hwf : mapWF m) :
    mapLookup (mapDelete m k) k = none := by
  induction m with
  | nil => rfl
  | cons hd tl ih =>
      obtain ⟨k', w⟩ := hd
      simp only [mapWF, List.map_cons, List.nodup_cons] at hwf
      by_cases h : k' = k
      · subst h
        simpa [mapDelete] using mapLookup_eq_none_of_not_mem tl k' hwf.1
      · simp [mapDelete, mapLookup, h, ih hwf.2]

theorem mapLookup_mapDelete_ne {α β : Type} [DecidableEq α]
    (m : List (α × β)) (k k' : α) (h : k ≠ k') :
    mapLookup (mapDelete m k) k' = mapLookup m k' := by
  induction m with
  | nil => rfl
  | cons hd tl ih =>
      obtain ⟨k₀, w⟩ := hd
      by_cases h0 : k₀ = k
      · subst h0
        have hne : ¬ k₀ = k' := fun hh => h (hh ▸ rfl)
        simp only [mapDelete, eq_self_iff_true, if_true, mapLookup, if_neg hne]
      · simp only [mapDelete, if_neg h0, mapLookup]
        by_cases h1 : k₀ = k' <;> simp [h1, ih]

theorem mem_keys_mapSet {α β : Type} [DecidableEq α]
    (m : List (α × β)) (k k' : α) (v : β) :
    k' ∈ (mapSet m k v).map Prod.fst ↔ k' ∈ m.map Prod.fst ∨ k' = k := by
  induction m with
  | nil => simp [mapSet]
  | cons hd tl ih =>
      obtain ⟨k₀, w⟩ := hd
      by_cases h0 : k₀ = k
      · subst h0
        simp only [mapSet, eq_self_iff_true, if_true, List.map_cons, List.mem_cons]
        constructor
        · intro h; exact Or.inl h
        · rintro (h | h)
          · exact h
          · exact Or.inl h
      · simp only [mapSet, if_neg h0, List.map_cons, List.mem_cons, ih]
        tauto

theorem mem_keys_mapDelete {α β : Type} [DecidableEq α]
    (m : List (α × β)) (k k' : α) :
    k' ∈ (mapDelete m k).map Prod.fst → k' ∈ m.map Prod.fst := by
  induction m with
  | nil => simp [mapDelete]
  | cons hd tl ih =>
      obtain ⟨k₀, w⟩ := hd
      by_cases h0 : k₀ = k
      · subst h0
        simp only [mapDelete, eq_self_iff_true, if_true, List.map_cons, List.mem_cons]
        intro h; exact Or.inr h
      · simp only [mapDelete, if_neg h0, List.map_cons, List.mem_cons]
        rintro (h | h)
        · exact Or.inl h
        · exact Or.inr (ih h)

theorem mapWF_mapSet {α β : Type} [DecidableEq α]
    (m : List (α × β)) (k : α) (v : β) (hwf : mapWF m) : mapWF (mapSet m k v) := by
  induction m with
  | nil => simp [mapSet, mapWF]
  | cons hd tl ih =>
      obtain ⟨k', w⟩ := hd
      simp only [mapWF, List.map_cons, List.nodup_cons] at hwf
      by_cases h : k' = k
      · subst h
        simp only [mapWF, mapSet, eq_self_iff_true, if_true, List.map_cons, List.nodup_cons]
        exact hwf
      · simp only [mapWF, mapSet, if_neg h, List.map_cons, List.nodup_cons]
        refine ⟨?_, ih hwf.2⟩
        intro hmem
        rcases (mem_keys_mapSet tl k k' v).1 hmem with h2 | h2
        · exact hwf.1 h2
        · exact h h2

theorem mapWF_mapDelete {α β : Type} [DecidableEq α]
    (m : List (α × β)) (k : α) (hwf : mapWF m) : mapWF (mapDelete m k) := by
  induction m with
  | nil => simp [mapDelete, mapWF]
  | cons hd tl ih =>
      obtain ⟨k', w⟩ := hd
      simp only [mapWF, List.map_cons, List.nodup_cons] at hwf
      by_cases h : k' = k
      · subst h
        simp only [mapDelete, eq_self_iff_true, if_true]
        exact hwf.2
      · simp only [mapWF, mapDelete, if_neg h, List.map_cons, List.nodup_cons]
        exact ⟨fun hmem => hwf.1 (mem_keys_mapDelete tl k k' hmem), ih hwf.2⟩

/-! ## Rate limiter — `src/src/lib/ratelimit.ts`

`RateLimiter` keeps `hits : Map<string, number[]>` from user id to the
timestamps (ms) of recent actions.  `consume` and `retryAfterSeconds` are
synchronous methods; `consume` mutates the map, `retryAfterSeconds` only
reads it (`Array.prototype.filter` allocates a fresh array and the method
never calls `hits.set`), so its embedding returns the state unchanged. -/

structure RateLimiter where
  maxActions : Nat
  windowMs : Int

/-- The `hits` map of a `RateLimiter` instance. -/
abbrev Hits := List (String × List Int)

/-- `consume(userId)` at time `now` (`Date.now()`).

Mirrors the source: look up the user's timestamps (inserting an empty
record when absent — that intermediate `set` is immediately overwritten
by the final `set`, so the embedding applies only the final one); prune
timestamps with `t > now - windowMs`; reject when the pruned count has
reached `maxActions`, leaving the pruned record; otherwise push `now`
and accept. -/
def RateLimiter.consume (rl : RateLimiter) (hits : Hits) (userId : String)
    (now : Int) : Bool × Hits :=
  let cutoff := now - rl.windowMs
  let timestamps := (mapLookup hits userId).getD []
  let filtered := timestamps.filter (fun t => cutoff < t)
  if rl.maxActions ≤ filtered.length then
    (false, mapSet hits userId filtered)
  else
    (true, mapSet hits userId (filtered ++ [now]))

/-- Exact integer value of `Math.ceil(a / 1000)` for an integer `a`
(the source divides two integer millisecond values). -/
def jsCeilDiv1000 (a : Int) : Int := Int.ediv (a + 999) 1000

/-- `retryAfterSeconds(userId)` at time `now`.

Returns `none` for the `Math.ceil(NaN)` that the source computes when
`maxActions = 0` and the record is empty (then `filtered[0]` is
`undefined`); in every other case the result is `some` of the returned
number of seconds.  The state component is the unmodified map. -/
def RateLimiter.retryAfterSeconds (rl : RateLimiter) (hits : Hits)
    (userId : String) (now : Int) : Option Int × Hits :=
  let cutoff := now - rl.windowMs
  match mapLookup hits userId with
  | none => (some 0, hits)
  | some timestamps =>
      let filtered := timestamps.filter (fun t => cutoff < t)
      if filtered.length < rl.maxActions then (some 0, hits)
      else
        match filtered with
        | [] => (none, hits)
        | oldest :: _ =>
            -- retryAt = oldest + windowMs; Math.ceil((retryAt - now) / 1000)
            (some (jsCeilDiv1000 (oldest + rl.windowMs - now)), hits)

/-- The record the limiter keeps for `u` after pruning at time `now`. -/
def prunedRecord (rl : RateLimiter) (hits : Hits) (u : String) (now : Int) :
    List Int :=
  ((mapLookup hits u).getD []).filter (fun t => now - rl.windowMs < t)

/-- C7: `consume` prunes timestamps older than the window on each call and
returns `true`, recording the call time, exactly when fewer than
`maxActions` timestamps remain inside the window; with `maxActions = 2`,
`windowMs = 10000` two in-window calls return `true, true`, a third
returns `false` leaving the pruned-but-unmodified record, and a call after
the window has elapsed returns `true` again. -/
theorem consume_sliding_window_spec :
    (∀ (rl : RateLimiter) (hits : Hits) (u : String) (now : Int),
      ((rl.consume hits u now).1 = true ↔
        (prunedRecord rl hits u now).length < rl.maxActions)
      ∧ (rl.consume hits u now).2 =
          mapSet hits u
            (if (prunedRecord rl hits u now).length < rl.maxActions
             then prunedRecord rl hits u now ++ [now]
             else prunedRecord rl hits u now))
    ∧ (∀ (u : String) (t0 t1 t2 t3 : Int),
        t0 ≤ t1 → t1 ≤ t2 → t2 < t0 + 10000 → t1 + 10000 ≤ t3 →
        let rl : RateLimiter := ⟨2, 10000⟩
        let r0 := rl.consume [] u t0
        let r1 := rl.consume r0.2 u t1
        let r2 := rl.consume r1.2 u t2
        let r3 := rl.consume r2.2 u t3
        r0.1 = true ∧ r1.1 = true ∧ r2.1 = false ∧
        r2.2 = [(u, [t0, t1])] ∧ r3.1 = true) := by
  constructor
  · intro rl hits u now
    unfold RateLimiter.consume prunedRecord
    by_cases h : rl.maxActions ≤
        (((mapLookup hits u).getD []).filter (fun t => now - rl.windowMs < t)).length
    · simp [h, if_neg (not_lt.mpr h)]
    · have hlt := lt_of_not_le h
      simp [h, if_pos hlt, hlt]
  · intro u t0 t1 t2 t3 h01 h12 hwin h3
    have e0 : RateLimiter.consume ⟨2, 10000⟩ [] u t0 = (true, [(u, [t0])]) := by
      simp [RateLimiter.consume, mapLookup, mapSet]
    have e1 : RateLimiter.consume ⟨2, 10000⟩ [(u, [t0])] u t1 =
        (true, [(u, [t0, t1])]) := by
      have hf : t1 - 10000 < t0 := by omega
      simp [RateLimiter.consume, mapLookup, mapSet, hf]
    have e2 : RateLimiter.consume ⟨2, 10000⟩ [(u, [t0, t1])] u t2 =
        (false, [(u, [t0, t1])]) := by
      have hf0 : t2 - 10000 < t0 := by omega
      have hf1 : t2 - 10000 < t1 := by omega
      simp [RateLimiter.consume, mapLookup, mapSet, hf0, hf1]
    have e3 : RateLimiter.consume ⟨2, 10000⟩ [(u, [t0, t1])] u t3 =
        (true, [(u, [t3])]) := by
      have hf0 : ¬ (t3 - 10000 < t0) := by omega
      have hf1 : ¬ (t3 - 10000 < t1) := by omega
      simp [RateLimiter.consume, mapLookup, mapSet, hf0, hf1]
    simp [e0, e1, e2, e3]

/-- Witness for C7: the scenario at `t0,t1,t2,t3 = 0,1,2,10001`. -/
theorem consume_sliding_window_spec_witness :
    let rl : RateLimiter := ⟨2, 10000⟩
    let r0 := rl.consume [] "u" 0
    let r1 := rl.consume r0.2 "u" 1
    let r2 := rl.consume r1.2 "u" 2
    let r3 := rl.consume r2.2 "u" 10001
    r0.1 = true ∧ r1.1 = true ∧ r2.1 = false ∧
    r2.2 = [("u", [0, 1])] ∧ r3.1 = true :=
  consume_sliding_window_spec.2 "u" 0 1 2 10001
    (by decide) (by decide) (by decide) (by decide)

/-- C10: `retryAfterSeconds` never modifies the limiter's state — the
`hits` map is returned unchanged, so a subsequent `consume` behaves
exactly as if `retryAfterSeconds` had not been called — and it returns
`0` whenever the actor has fewer than `maxActions` timestamps inside the
current window. -/
theorem retry_after_seconds_frame :
    ∀ (rl : RateLimiter) (hits : Hits) (u : String) (now : Int),
      (rl.retryAfterSeconds hits u now).2 = hits
      ∧ (∀ (u' : String) (now' : Int),
          rl.consume (rl.retryAfterSeconds hits u now).2 u' now' =
            rl.consume hits u' now')
      ∧ ((prunedRecord rl hits u now).length < rl.maxActions →
          (rl.retryAfterSeconds hits u now).1 = some 0) := by
  intro rl hits u now
  have hstate : (rl.retryAfterSeconds hits u now).2 = hits := by
    unfold RateLimiter.retryAfterSeconds
    cases h : mapLookup hits u with
    | none => rfl
    | some ts =>
        simp only
        split
        · rfl
        · split <;> rfl
  refine ⟨hstate, fun u' now' => by rw [hstate], ?_⟩
  intro hlen
  unfold RateLimiter.retryAfterSeconds
  unfold prunedRecord at hlen
  cases h : mapLookup hits u with
  | none => rfl
  | some ts =>
      rw [h] at hlen
      simp only [Option.getD_some] at hlen
      simp only [if_pos hlen]

/-- Witness for C10 at a concrete limiter state. -/
theorem retry_after_seconds_frame_witness :
    (RateLimiter.retryAfterSeconds ⟨2, 10000⟩ [("u", [5])] "u" 20).1 = some 0 ∧
    (RateLimiter.retryAfterSeconds ⟨2, 10000⟩ [("u", [5])] "u" 20).2 =
      [("u", [5])] :=
  ⟨(retry_after_seconds_frame ⟨2, 10000⟩ [("u", [5])] "u" 20).2.2 (by decide),
   (retry_after_seconds_frame ⟨2, 10000⟩ [("u", [5])] "u" 20).1⟩

/-! ## Roll stores — `part_004` (`store.ts`) and `src/src/lib/redis-roll-store.ts`

`StoredRoll` is the session entry (spec: SessionEntry).  Its `result`
payload (`RollResult` from `dice.ts`) is opaque to both stores — neither
ever reads it — so it is a type parameter `ρ` here.  `Date` values are
their `getTime()` epoch milliseconds. -/

structure StoredRoll (ρ : Type) where
  rollId : String
  userId : String
  channelId : String
  result : ρ
  comment : Option String
  rolledAt : Int
  publicMessageId : String
  rollerTag : String
  deriving DecidableEq

structure MemoryRollStore (ρ : Type) where
  store : List (String × StoredRoll ρ)
  ttlMs : Int

/-- `Date.now() - entry.rolledAt.getTime() > this.ttlMs` -/
def MemoryRollStore.isExpired {ρ : Type} (s : MemoryRollStore ρ)
    (entry : StoredRoll ρ) (now : Int) : Bool :=
  s.ttlMs < now - entry.rolledAt

/-- `set(roll)`: `this.store.set(roll.rollId, roll)`. -/
def MemoryRollStore.set {ρ : Type} (s : MemoryRollStore ρ) (roll : StoredRoll ρ) :
    MemoryRollStore ρ :=
  { s with store := mapSet s.store roll.rollId roll }

/-- `get(rollId)`: absent when missing; an expired entry is deleted and
reported absent (freshness checked per read); otherwise the entry. -/
def MemoryRollStore.get {ρ : Type} (s : MemoryRollStore ρ) (now : Int)
    (rollId : String) : Option (StoredRoll ρ) × MemoryRollStore ρ :=
  match mapLookup s.store rollId with
  | none => (none, s)
  | some entry =>
      if s.isExpired entry now then
        (none, { s with store := mapDelete s.store rollId })
      else
        (some entry, s)

/-- First half of `claim(rollId)` — everything up to and including
`await this.get(rollId)`.  The `get` body runs synchronously; the `await`
then suspends the caller, so another claim call may run between the two
phases. -/
def MemoryRollStore.claimPhase1 {ρ : Type} (s : MemoryRollStore ρ) (now : Int)
    (rollId : String) : Option (StoredRoll ρ) × MemoryRollStore ρ :=
  s.get now rollId

/-- Second half of `claim(rollId)` — the continuation after the `await`:
`if (entry) { this.store.delete(rollId); } return entry;`. -/
def MemoryRollStore.claimPhase2 {ρ : Type} (s : MemoryRollStore ρ)
    (rollId : String) (entry : Option (StoredRoll ρ)) :
    Option (StoredRoll ρ) × MemoryRollStore ρ :=
  match entry with
  | some e => (some e, { s with store := mapDelete s.store rollId })
  | none => (none, s)

/-- `claim(rollId)` run without interleaving: phase 2 directly after
phase 1. -/
def MemoryRollStore.claim {ρ : Type} (s : MemoryRollStore ρ) (now : Int)
    (rollId : String) : Option (StoredRoll ρ) × MemoryRollStore ρ :=
  let p1 := s.claimPhase1 now rollId
  p1.2.claimPhase2 rollId p1.1

/-- `delete(rollId)`: `Map.prototype.delete` — removes the entry, returns
whether it existed. -/
def MemoryRollStore.del {ρ : Type} (s : MemoryRollStore ρ) (rollId : String) :
    Bool × MemoryRollStore ρ :=
  ((mapLookup s.store rollId).isSome, { s with store := mapDelete s.store rollId })

/-- `sweep()`: remove every entry with `now - rolledAt > ttlMs`. -/
def MemoryRollStore.sweep {ρ : Type} (s : MemoryRollStore ρ) (now : Int) :
    MemoryRollStore ρ :=
  { s with store := s.store.filter (fun p => !(s.ttlMs < now - p.2.rolledAt)) }

/-! ### Redis-backed roll store

The key space is embedded as an association list from key strings to the
stored entry plus its absolute expiry time (the store always writes with
`px: ttlMs`, so the expiry is `now + ttlMs` at write time).  JSON
serialization (`dateReplacer` / `parseStoredRoll`) round-trips the entry
and is not modelled separately.  `claim` runs the Lua script
`GET key; if val then DEL key; return val` as one atomic step — exactly
the guarantee the server gives scripts. -/

structure RedisRollStore (ρ : Type) where
  kv : List (String × (StoredRoll ρ × Int))
  ttlMs : Int
  keyPrefix : String

/-- `` `${this.keyPrefix}:roll:${rollId}` `` -/
def RedisRollStore.rollKey {ρ : Type} (s : RedisRollStore ρ) (rollId : String) :
    String :=
  s.keyPrefix ++ ":roll:" ++ rollId

/-- A Redis `GET` at time `now`: a key written with expiry `exp` is gone
once `exp ≤ now` (native expiry, no sweep needed). -/
def redisGetKey {ρ : Type} (kv : List (String × (StoredRoll ρ × Int)))
    (now : Int) (key : String) : Option (StoredRoll ρ) :=
  match mapLookup kv key with
  | none => none
  | some (v, exp) => if exp ≤ now then none else some v

/-- `set(roll)`: `SET key json PX ttlMs`. -/
def RedisRollStore.set {ρ : Type} (s : RedisRollStore ρ) (now : Int)
    (roll : StoredRoll ρ) : RedisRollStore ρ :=
  { s with kv := mapSet s.kv (s.rollKey roll.rollId) (roll, now + s.ttlMs) }

/-- `get(rollId)`: non-destructive read. -/
def RedisRollStore.get {ρ : Type} (s : RedisRollStore ρ) (now : Int)
    (rollId : String) : Option (StoredRoll ρ) :=
  redisGetKey s.kv now (s.rollKey rollId)

/-- `claim(rollId)`: the atomic Lua script (read-then-delete in one server
round trip). -/
def RedisRollStore.claim {ρ : Type} (s : RedisRollStore ρ) (now : Int)
    (rollId : String) : Option (StoredRoll ρ) × RedisRollStore ρ :=
  match redisGetKey s.kv now (s.rollKey rollId) with
  | none => (none, s)
  | some v => (some v, { s with kv := mapDelete s.kv (s.rollKey rollId) })

/-- `delete(rollId)`: `DEL key`, true when a live key was removed. -/
def RedisRollStore.del {ρ : Type} (s : RedisRollStore ρ) (now : Int)
    (rollId : String) : Bool × RedisRollStore ρ :=
  ((redisGetKey s.kv now (s.rollKey rollId)).isSome,
   { s with kv := mapDelete s.kv (s.rollKey rollId) })

/-- A concrete session entry used to evaluate the stores. -/
def sampleRoll : StoredRoll Unit :=
  { rollId := "r", userId := "alice", channelId := "chan", result := ()
    comment := none, rolledAt := 0, publicMessageId := "m", rollerTag := "alice#1" }

/-- C1 (code bug): `MemoryRollStore.claim` is `await this.get(rollId)`
followed by `this.store.delete(rollId)`.  The `await` is a suspension
point, so two claim calls that start in the same event-loop turn (e.g.
under `Promise.all`) both run their read phase before either continuation
deletes — and both callers receive the entry, contradicting the
single-winner contract stated in `store-interface.ts` and asserted
"trivially safe" in the method's own comment.  By contrast a claim that
completes before the next begins, and the Redis Lua-script claim (atomic
server-side), are single-winner. -/
theorem memory_claim_race_both_receive :
    (let s0 : MemoryRollStore Unit := { store := [("r", sampleRoll)], ttlMs := 600000 }
     -- caller A runs `claim("r")` up to its `await this.get(...)`:
     let a1 := s0.claimPhase1 5 "r"
     -- caller B starts before A's continuation is scheduled:
     let b1 := a1.2.claimPhase1 6 "r"
     -- the queued continuations then run in order:
     let a2 := b1.2.claimPhase2 "r" a1.1
     let b2 := a2.2.claimPhase2 "r" b1.1
     a2.1 = some sampleRoll ∧ b2.1 = some sampleRoll)
    ∧ (let s0 : MemoryRollStore Unit := { store := [("r", sampleRoll)], ttlMs := 600000 }
       (s0.claim 5 "r").1 = some sampleRoll ∧
       ((s0.claim 5 "r").2.claim 6 "r").1 = none ∧
       ((s0.claim 5 "r").2.get 6 "r").1 = none)
    ∧ (let r0 : RedisRollStore Unit :=
         { kv := [("p:roll:r", (sampleRoll, 600000))], ttlMs := 600000, keyPrefix := "p" }
       (r0.claim 5 "r").1 = some sampleRoll ∧
       ((r0.claim 5 "r").2.claim 6 "r").1 = none ∧
       (r0.claim 5 "r").2.get 6 "r" = none) := by
  decide

/-- C2: `get(id)` returns absent whenever `rolledAt + ttlMs < now`
(freshness is enforced on each read — the statement quantifies over every
store state, swept or not), and otherwise returns the stored entry
unchanged. -/
theorem get_enforces_ttl_per_read (ρ : Type) (s : MemoryRollStore ρ)
    (now : Int) (id : String) :
    (∀ e : StoredRoll ρ, mapLookup s.store id = some e →
        e.rolledAt + s.ttlMs < now → (s.get now id).1 = none)
    ∧ (∀ e : StoredRoll ρ, mapLookup s.store id = some e →
        ¬ (e.rolledAt + s.ttlMs < now) → (s.get now id).1 = some e)
    ∧ (mapLookup s.store id = none → (s.get now id).1 = none) := by
  refine ⟨?_, ?_, ?_⟩
  · intro e he hexp
    have hb : s.ttlMs < now - e.rolledAt := by omega
    simp [MemoryRollStore.get, he, MemoryRollStore.isExpired, hb]
  · intro e he hfresh
    have hb : ¬ (s.ttlMs < now - e.rolledAt) := by omega
    simp [MemoryRollStore.get, he, MemoryRollStore.isExpired, hb]
  · intro h
    simp [MemoryRollStore.get, h]

/-- Witness for C2: a store one millisecond past its TTL reports absent,
and at the TTL boundary still returns the entry. -/
theorem get_enforces_ttl_per_read_witness :
    (MemoryRollStore.get { store := [("r", sampleRoll)], ttlMs := 600000 }
      600001 "r").1 = none
    ∧ (MemoryRollStore.get { store := [("r", sampleRoll)], ttlMs := 600000 }
      600000 "r").1 = some sampleRoll :=
  ⟨(get_enforces_ttl_per_read Unit { store := [("r", sampleRoll)], ttlMs := 600000 }
      600001 "r").1 sampleRoll (by decide) (by decide),
   (get_enforces_ttl_per_read Unit { store := [("r", sampleRoll)], ttlMs := 600000 }
      600000 "r").2.1 sampleRoll (by decide) (by decide)⟩

/-! ## Request authenticator — `part_007` (`verify.ts`)

`verifyDiscordSignature` wraps its whole body in `try { … } catch
{ return false; }`.  The two external effects — `subtle.importKey` and
`subtle.verify` from Node's WebCrypto — are parameters here
(`CryptoBackend`), each returning `Except` to model a thrown exception.
`Buffer.from(string)` (UTF-8 encoding) is the parameter `enc`;
`Buffer.concat([Buffer.from(timestamp), Buffer.from(rawBody)])` is
`enc timestamp ++ enc rawBody`.  `hexToBytes` follows
`Buffer.from(hex, 'hex')`: decode hex-digit pairs, stopping at the first
invalid pair (malformed hex never throws, it truncates). -/

def hexDigitVal (c : Char) : Option Nat :=
  if '0' ≤ c ∧ c ≤ '9' then some (c.toNat - '0'.toNat)
  else if 'a' ≤ c ∧ c ≤ 'f' then some (c.toNat - 'a'.toNat + 10)
  else if 'A' ≤ c ∧ c ≤ 'F' then some (c.toNat - 'A'.toNat + 10)
  else none

def hexToBytes : List Char → List Nat
  | c1 :: c2 :: rest =>
      match hexDigitVal c1, hexDigitVal c2 with
      | some hi, some lo => (16 * hi + lo) :: hexToBytes rest
      | _, _ => []
  | _ => []

/-- The externally supplied asymmetric-signature primitives (Node
WebCrypto `subtle`).  `Except Unit` models a thrown exception. -/
structure CryptoBackend (Key : Type) where
  importRawEd25519 : List Nat → Except Unit Key
  verifyEd25519 : Key → List Nat → List Nat → Except Unit Bool

/-- `verifyDiscordSignature(rawBody, signature, timestamp, publicKey)`:
load the hex-decoded public key, verify the hex-decoded signature over
the byte-concatenation of timestamp and raw body; any exception resolves
to `false`. -/
def verifyDiscordSignature {Key : Type} (C : CryptoBackend Key)
    (enc : String → List Nat)
    (rawBody signatureHex timestamp publicKey : String) : Bool :=
  match C.importRawEd25519 (hexToBytes publicKey.data) with
  | .error _ => false
  | .ok key =>
      let message := enc timestamp ++ enc rawBody
      match C.verifyEd25519 key (hexToBytes signatureHex.data) message with
      | .error _ => false
      | .ok b => b

/-- C9: the authenticator never lets an exception past its boundary — a
failing `importKey` or `verify` resolves to `false` — and it returns
`true` exactly when the backend's Ed25519 verification accepts the
hex-decoded signature over `timestamp ‖ rawBody` under the hex-decoded
public key. -/
theorem verify_signature_total_and_exact {Key : Type} (C : CryptoBackend Key)
    (enc : String → List Nat)
    (rawBody signatureHex timestamp publicKey : String) :
    (verifyDiscordSignature C enc rawBody signatureHex timestamp publicKey = true ↔
      ∃ k, C.importRawEd25519 (hexToBytes publicKey.data) = .ok k ∧
        C.verifyEd25519 k (hexToBytes signatureHex.data)
          (enc timestamp ++ enc rawBody) = .ok true)
    ∧ (∀ e : Unit, C.importRawEd25519 (hexToBytes publicKey.data) = .error e →
        verifyDiscordSignature C enc rawBody signatureHex timestamp publicKey = false)
    ∧ (∀ (k : Key) (e : Unit),
        C.importRawEd25519 (hexToBytes publicKey.data) = .ok k →
        C.verifyEd25519 k (hexToBytes signatureHex.data)
          (enc timestamp ++ enc rawBody) = .error e →
        verifyDiscordSignature C enc rawBody signatureHex timestamp publicKey = false) := by
  refine ⟨?_, ?_, ?_⟩
  · constructor
    · intro h
      unfold verifyDiscordSignature at h
      cases himp : C.importRawEd25519 (hexToBytes publicKey.data) with
      | error e => rw [himp] at h; exact absurd h (by simp)
      | ok k =>
          rw [himp] at h
          simp only at h
          cases hver : C.verifyEd25519 k (hexToBytes signatureHex.data)
              (enc timestamp ++ enc rawBody) with
          | error e => rw [hver] at h; exact absurd h (by simp)
          | ok b =>
              rw [hver] at h
              have hb : b = true := h
              subst hb
              exact ⟨k, rfl, hver⟩

    · rintro ⟨k, himp, hver⟩
      unfold verifyDiscordSignature
      rw [himp]
      simp only
      rw [hver]
  · intro e himp
    unfold verifyDiscordSignature
    rw [himp]
  · intro k e himp hver
    unfold verifyDiscordSignature
    rw [himp]
    simp only
    rw [hver]

/-- A concrete backend used to evaluate the authenticator: keys must be
32 bytes, verification accepts exactly when the signature bytes equal the
message bytes. -/
def toyBackend : CryptoBackend Unit :=
  { importRawEd25519 := fun bytes =>
      if bytes.length = 32 then .ok () else .error ()
    verifyEd25519 := fun _ sig msg => .ok (sig = msg) }

/-- Witness for C9: a 3-character (malformed) hex key makes `importKey`
fail and the authenticator return `false`; a well-formed key with a
matching signature returns `true`. -/
theorem verify_signature_total_and_exact_witness :
    verifyDiscordSignature toyBackend (fun s => s.data.map Char.toNat)
      "{}" "00" "1700000000" "abc" = false
    ∧ verifyDiscordSignature toyBackend (fun _ => [])
      "{}" "" "1700000000"
      "0000000000000000000000000000000000000000000000000000000000000000" = true :=
  ⟨(verify_signature_total_and_exact toyBackend (fun s => s.data.map Char.toNat)
      "{}" "00" "1700000000" "abc").2.1 () (by rfl),
   (verify_signature_total_and_exact toyBackend (fun _ => [])
      "{}" "" "1700000000"
      "0000000000000000000000000000000000000000000000000000000000000000").1.mpr
     ⟨(), by rfl, by rfl⟩⟩

/-! ## Timer stores — `part_006` (`timer-store.ts`) and `part_003` (`redis-timer-store.ts`)

A `setInterval` driver is embedded as a step function per firing
(`memTick` / `redisTick`), run at the ideal firing times
`startedAt + k·intervalMs`.  The driver's callbacks `onTrigger` /
`onComplete` and the host operations `clearInterval` /
`Map.prototype.delete` are recorded as an event trace in execution
order, so the relative order of halting, store removal, the final tick
and completion is observable.  `intervalHandle` (a host resource) is
represented by the `running` flag threaded next to the state. -/

inductive TimerCompleteReason
  | repeatExhausted   -- "repeat-exhausted"
  | maxDuration       -- "max-duration"
  deriving DecidableEq

structure TimerInstance where
  id : Nat
  guildId : String
  channelId : String
  name : String
  intervalMinutes : Nat
  maxRepeat : Option Nat
  triggerCount : Nat
  startedAt : Int
  maxDurationMs : Int
  startedBy : String
  deriving DecidableEq

structure TimerConfig where
  guildId : String
  channelId : String
  name : String
  intervalMinutes : Nat
  maxRepeat : Option Nat
  startedBy : String
  deriving DecidableEq

inductive TimerEv
  | cleared (id : Nat)                                   -- clearInterval(handle)
  | removed (id : Nat)                                   -- entry removed from the store
  | tick (id : Nat) (tc : Nat)                           -- onTrigger, triggerCount = tc
  | finish (id : Nat) (tc : Nat) (reason : TimerCompleteReason)  -- onComplete
  deriving DecidableEq

inductive TimerParseError
  | nameEmpty
  | nameTooLong
  | nameInvalidChars
  | intervalOutOfRange
  | repeatOutOfRange
  | channelAtCapacity
  deriving DecidableEq

/-- `String.prototype.trim` — strip whitespace from both ends (written
out over the character list so concrete instances evaluate). -/
def jsTrim (s : String) : String :=
  ⟨((s.data.dropWhile Char.isWhitespace).reverse.dropWhile
      Char.isWhitespace).reverse⟩

/-- `/\w/` of `NAME_PATTERN = /^[\w\s\-]+$/` (ASCII letters, digits, `_`). -/
def isWordChar (c : Char) : Bool := c.isAlpha || c.isDigit || c = '_'

/-- `NAME_PATTERN.test(name)` -/
def namePatternOk (name : String) : Bool :=
  name.length ≠ 0 && name.data.all (fun c => isWordChar c || c.isWhitespace || c = '-')

/-- `config.maxRepeat !== null && (config.maxRepeat < 1 || config.maxRepeat > MAX_REPEAT)` -/
def maxRepeatOutOfBounds (mr : Option Nat) : Bool :=
  match mr with
  | some m => decide (m < 1 ∨ 100 < m)
  | none => false

/-- `timer.maxRepeat !== null && timer.triggerCount >= timer.maxRepeat` -/
def maxRepeatReached (mr : Option Nat) (tc : Nat) : Bool :=
  match mr with
  | some m => decide (m ≤ tc)
  | none => false

/-- The shared validation checks of both stores (`validate(config)`),
parameterised by the current live count in the target channel.  A thrown
`TimerParseError` is the `Except.error` case. -/
def validateTimer (currentChannelCount : Nat) (cfg : TimerConfig) :
    Except TimerParseError Unit :=
  if (jsTrim cfg.name).length = 0 then .error .nameEmpty
  else if 50 < cfg.name.length then .error .nameTooLong
  else if ¬ namePatternOk cfg.name then .error .nameInvalidChars
  else if cfg.intervalMinutes < 1 ∨ 480 < cfg.intervalMinutes then
    .error .intervalOutOfRange
  else if maxRepeatOutOfBounds cfg.maxRepeat then .error .repeatOutOfRange
  else if 5 ≤ currentChannelCount then .error .channelAtCapacity
  else .ok ()

/-! ### Memory timer store -/

structure MemTimerStore where
  timers : List (Nat × TimerInstance)
  nextId : Nat
  maxDurationMs : Int

/-- `channelCount(channelId)` -/
def MemTimerStore.channelCount (s : MemTimerStore) (channelId : String) : Nat :=
  (s.timers.filter (fun p => p.2.channelId = channelId)).length

/-- `create(config, …)` up to starting the driver: validate, assign
`nextId++`, insert the instance with `triggerCount = 0`. -/
def memCreate (s : MemTimerStore) (cfg : TimerConfig) (now : Int) :
    Except TimerParseError (MemTimerStore × TimerInstance) :=
  match validateTimer (s.channelCount cfg.channelId) cfg with
  | .error e => .error e
  | .ok _ =>
      let id := s.nextId
      let timer : TimerInstance :=
        { id := id, guildId := cfg.guildId, channelId := cfg.channelId
          name := cfg.name, intervalMinutes := cfg.intervalMinutes
          maxRepeat := cfg.maxRepeat, triggerCount := 0, startedAt := now
          maxDurationMs := s.maxDurationMs, startedBy := cfg.startedBy }
      .ok ({ s with timers := mapSet s.timers id timer, nextId := id + 1 }, timer)

/-- One firing of the memory driver's interval callback at time `now`.
The closure's `timer` object is the map entry (the map stores the same
object), so the `triggerCount++` mutation is an update of the entry. -/
def memTick (s : MemTimerStore) (running : Bool) (id : Nat) (intervalMs : Int)
    (now : Int) : MemTimerStore × Bool × List TimerEv :=
  if running then
    match mapLookup s.timers id with
    | none => (s, false, [.cleared id])   -- removed by stop() between ticks
    | some timer0 =>
        let timer := { timer0 with triggerCount := timer0.triggerCount + 1 }
        let s1 : MemTimerStore := { s with timers := mapSet s.timers id timer }
        if maxRepeatReached timer.maxRepeat timer.triggerCount then
          ({ s1 with timers := mapDelete s1.timers id }, false,
           [.cleared id, .removed id, .tick id timer.triggerCount,
            .finish id timer.triggerCount .repeatExhausted])
        else
          let elapsed := now - timer.startedAt
          if timer.maxDurationMs < elapsed + intervalMs then
            ({ s1 with timers := mapDelete s1.timers id }, false,
             [.cleared id, .removed id, .tick id timer.triggerCount,
              .finish id timer.triggerCount .maxDuration])
          else
            (s1, true, [.tick id timer.triggerCount])
  else (s, false, [])   -- the interval was cleared: the callback no longer runs

/-- Run the driver for `n` consecutive firings at the ideal times
`prev + i`, `prev + 2i`, …, where `prev` is the previous firing time
(`startedAt` before the first firing). -/
def memRun (id : Nat) (intervalMs : Int) :
    MemTimerStore → Bool → Int → Nat → MemTimerStore × Bool × List TimerEv
  | s, r, _, 0 => (s, r, [])
  | s, r, prev, Nat.succ n =>
      let step := memTick s r id intervalMs (prev + intervalMs)
      let rest := memRun id intervalMs step.1 step.2.1 (prev + intervalMs) n
      (rest.1, rest.2.1, step.2.2 ++ rest.2.2)

/-- `stop(timerId)`: halt (`clearInterval`) and remove; `null` when
absent.  `stop` never invokes `onTrigger`/`onComplete`, hence no events. -/
def memStop (s : MemTimerStore) (id : Nat) :
    Option TimerInstance × MemTimerStore :=
  match mapLookup s.timers id with
  | none => (none, s)
  | some t => (some t, { s with timers := mapDelete s.timers id })

/-- `get(timerId)` -/
def memGet (s : MemTimerStore) (id : Nat) : Option TimerInstance :=
  mapLookup s.timers id

/-! ### Redis timer store

Hybrid state: the process-local `localTimers` map plus the shared keys —
timer metadata (`timer:{id}`), stop flags (`timer:stop:{id}`, written
with a 60 s expiry), and per-channel id sets (`timer:channel:{ch}`). -/

structure RedisTimerState where
  localTimers : List (Nat × TimerInstance)
  meta : List (Nat × TimerInstance)     -- JSON metadata (instance minus handle)
  stopFlags : List (Nat × Int)          -- id ↦ absolute expiry of the marker
  channelSets : List (String × List Nat)
  nextId : Nat                          -- value of the `timer:nextid` counter
  maxDurationMs : Int

/-- `EXISTS timer:stop:{id}` at time `now` (the marker was set with
`px: 60000`). -/
def stopFlagExists (st : RedisTimerState) (id : Nat) (now : Int) : Bool :=
  match mapLookup st.stopFlags id with
  | some exp => now < exp
  | none => false

/-- `SADD timer:channel:{ch} id` -/
def saddChannel (st : RedisTimerState) (ch : String) (id : Nat) : RedisTimerState :=
  let cur := (mapLookup st.channelSets ch).getD []
  { st with channelSets :=
      mapSet st.channelSets ch (if id ∈ cur then cur else cur ++ [id]) }

/-- `SREM timer:channel:{ch} id` -/
def sremChannel (st : RedisTimerState) (ch : String) (id : Nat) : RedisTimerState :=
  match mapLookup st.channelSets ch with
  | none => st
  | some cur =>
      { st with channelSets := mapSet st.channelSets ch (cur.filter (· ≠ id)) }

/-- `cleanupRedisKeys(timerId, channelId)`: `DEL timer:{id}` and `SREM`
from the channel set. -/
def cleanupRedisKeys (st : RedisTimerState) (id : Nat) (ch : String) :
    RedisTimerState :=
  sremChannel { st with meta := mapDelete st.meta id } ch id

/-- `create(config, …)`: validate (`SCARD` channel set), `INCR
timer:nextid`, write metadata, `SADD`, start the local driver. -/
def redisCreate (st : RedisTimerState) (cfg : TimerConfig) (now : Int) :
    Except TimerParseError (RedisTimerState × TimerInstance) :=
  match validateTimer ((mapLookup st.channelSets cfg.channelId).getD []).length cfg with
  | .error e => .error e
  | .ok _ =>
      let id := st.nextId + 1
      let timer : TimerInstance :=
        { id := id, guildId := cfg.guildId, channelId := cfg.channelId
          name := cfg.name, intervalMinutes := cfg.intervalMinutes
          maxRepeat := cfg.maxRepeat, triggerCount := 0, startedAt := now
          maxDurationMs := st.maxDurationMs, startedBy := cfg.startedBy }
      let st1 := { st with nextId := id, meta := mapSet st.meta id timer }
      let st2 := saddChannel st1 cfg.channelId id
      .ok ({ st2 with localTimers := mapSet st2.localTimers id timer }, timer)

/-- The tick's read-modify-write of `timer:{id}`: `parsed.triggerCount =
timer.triggerCount; SET` — skipped when the metadata key is gone. -/
def updateMetaTc (meta : List (Nat × TimerInstance)) (id : Nat) (tc : Nat) :
    List (Nat × TimerInstance) :=
  match mapLookup meta id with
  | some m => mapSet meta id { m with triggerCount := tc }
  | none => meta

/-- One firing of the Redis driver's interval callback at time `now`. -/
def redisTick (st : RedisTimerState) (running : Bool) (id : Nat)
    (intervalMs : Int) (now : Int) : RedisTimerState × Bool × List TimerEv :=
  if running then
    -- stop-flag check, then the local-map check, both self-clearing
    if stopFlagExists st id now then (st, false, [.cleared id])
    else
      match mapLookup st.localTimers id with
      | none => (st, false, [.cleared id])
      | some timer0 =>
          let timer := { timer0 with triggerCount := timer0.triggerCount + 1 }
          let st1 := { st with localTimers := mapSet st.localTimers id timer }
          -- mirror the new trigger count into the Redis metadata, if present
          let st2 := { st1 with meta := updateMetaTc st1.meta id timer.triggerCount }
          if maxRepeatReached timer.maxRepeat timer.triggerCount then
            let st3 := { st2 with localTimers := mapDelete st2.localTimers id }
            (cleanupRedisKeys st3 id timer.channelId, false,
             [.cleared id, .removed id, .tick id timer.triggerCount,
              .finish id timer.triggerCount .repeatExhausted])
          else
            let elapsed := now - timer.startedAt
            if timer.maxDurationMs < elapsed + intervalMs then
              let st3 := { st2 with localTimers := mapDelete st2.localTimers id }
              (cleanupRedisKeys st3 id timer.channelId, false,
               [.cleared id, .removed id, .tick id timer.triggerCount,
                .finish id timer.triggerCount .maxDuration])
            else
              (st2, true, [.tick id timer.triggerCount])
  else (st, false, [])

/-- Run the Redis driver for `n` consecutive firings at the ideal times
`prev + i`, `prev + 2i`, …. -/
def redisRun (id : Nat) (intervalMs : Int) :
    RedisTimerState → Bool → Int → Nat → RedisTimerState × Bool × List TimerEv
  | st, r, _, 0 => (st, r, [])
  | st, r, prev, Nat.succ n =>
      let step := redisTick st r id intervalMs (prev + intervalMs)
      let rest := redisRun id intervalMs step.1 step.2.1 (prev + intervalMs) n
      (rest.1, rest.2.1, step.2.2 ++ rest.2.2)

/-- `stop(timerId)` at time `now`: halt the local driver when present,
set the 60 s stop marker, clean the shared keys; for a timer only known
through shared metadata, set the marker and clean up; `null` otherwise.
Invokes no callbacks. -/
def redisStop (st : RedisTimerState) (id : Nat) (now : Int) :
    Option TimerInstance × RedisTimerState :=
  match mapLookup st.localTimers id with
  | none =>
      match mapLookup st.meta id with
      | some m =>
          let st1 := { st with stopFlags := mapSet st.stopFlags id (now + 60000) }
          (some m, cleanupRedisKeys st1 id m.channelId)
      | none => (none, st)
  | some t =>
      let st1 := { st with localTimers := mapDelete st.localTimers id }
      let st2 := { st1 with stopFlags := mapSet st1.stopFlags id (now + 60000) }
      (some t, cleanupRedisKeys st2 id t.channelId)

/-- `get(timerId)`: local first, then shared metadata. -/
def redisGet (st : RedisTimerState) (id : Nat) : Option TimerInstance :=
  match mapLookup st.localTimers id with
  | some t => some t
  | none => mapLookup st.meta id

/-! ### Driver lemmas -/

theorem mapSet_mapSet {α β : Type} [DecidableEq α]
    (m : List (α × β)) (k : α) (v w : β) :
    mapSet (mapSet m k v) k w = mapSet m k w := by
  induction m with
  | nil => simp [mapSet]
  | cons hd tl ih =>
      obtain ⟨k₀, u⟩ := hd
      by_cases h0 : k₀ = k <;> simp [mapSet, h0, ih]

theorem mapDelete_mapSet {α β : Type} [DecidableEq α]
    (m : List (α × β)) (k : α) (v : β) :
    mapDelete (mapSet m k v) k = mapDelete m k := by
  induction m with
  | nil => simp [mapSet, mapDelete]
  | cons hd tl ih =>
      obtain ⟨k₀, u⟩ := hd
      by_cases h0 : k₀ = k <;> simp [mapSet, mapDelete, h0, ih]

theorem mapDelete_updateMetaTc (meta : List (Nat × TimerInstance)) (id : Nat)
    (tc : Nat) : mapDelete (updateMetaTc meta id tc) id = mapDelete meta id := by
  unfold updateMetaTc
  cases h : mapLookup meta id with
  | none => rfl
  | some m => simp [mapDelete_mapSet]

/-- A halted driver (`clearInterval` already ran) fires no further
callbacks and leaves the store untouched. -/
theorem memRun_halted (id : Nat) (i : Int) (s : MemTimerStore) :
    ∀ (n : Nat) (prev : Int), memRun id i s false prev n = (s, false, []) := by
  intro n
  induction n with
  | zero => intro prev; rfl
  | succ n ih =>
      intro prev
      have hstep : memTick s false id i (prev + i) = (s, false, []) := rfl
      show memRun id i s false prev (n + 1) = (s, false, [])
      rw [memRun]
      simp only [hstep, ih (prev + i)]
      rfl

theorem redisRun_halted (id : Nat) (i : Int) (st : RedisTimerState) :
    ∀ (n : Nat) (prev : Int), redisRun id i st false prev n = (st, false, []) := by
  intro n
  induction n with
  | zero => intro prev; rfl
  | succ n ih =>
      intro prev
      have hstep : redisTick st false id i (prev + i) = (st, false, []) := rfl
      show redisRun id i st false prev (n + 1) = (st, false, [])
      rw [redisRun]
      simp only [hstep, ih (prev + i)]
      rfl

/-- A non-terminating firing: count up, fire `onTrigger`, keep running. -/
theorem memTick_normal (s : MemTimerStore) (id : Nat) (i now : Int)
    (t : TimerInstance)
    (hl : mapLookup s.timers id = some t)
    (hrep : maxRepeatReached t.maxRepeat (t.triggerCount + 1) = false)
    (hdur : ¬ (t.maxDurationMs < now - t.startedAt + i)) :
    memTick s true id i now =
      ({ s with timers :=
          mapSet s.timers id { t with triggerCount := t.triggerCount + 1 } },
       true, [.tick id (t.triggerCount + 1)]) := by
  simp [memTick, hl, hrep, hdur]

/-- A firing that exhausts `maxRepeat`: halt, remove, final `onTrigger`,
`onComplete("repeat-exhausted")`. -/
theorem memTick_repeat_end (s : MemTimerStore) (id : Nat) (i now : Int)
    (t : TimerInstance)
    (hl : mapLookup s.timers id = some t)
    (hrep : maxRepeatReached t.maxRepeat (t.triggerCount + 1) = true) :
    memTick s true id i now =
      ({ s with timers := mapDelete s.timers id }, false,
       [.cleared id, .removed id, .tick id (t.triggerCount + 1),
        .finish id (t.triggerCount + 1) .repeatExhausted]) := by
  simp [memTick, hl, hrep, mapDelete_mapSet]

/-- A firing whose next tick would exceed `maxDurationMs`: halt, remove,
final `onTrigger`, `onComplete("max-duration")`. -/
theorem memTick_duration_end (s : MemTimerStore) (id : Nat) (i now : Int)
    (t : TimerInstance)
    (hl : mapLookup s.timers id = some t)
    (hrep : maxRepeatReached t.maxRepeat (t.triggerCount + 1) = false)
    (hdur : t.maxDurationMs < now - t.startedAt + i) :
    memTick s true id i now =
      ({ s with timers := mapDelete s.timers id }, false,
       [.cleared id, .removed id, .tick id (t.triggerCount + 1),
        .finish id (t.triggerCount + 1) .maxDuration]) := by
  simp [memTick, hl, hrep, hdur, mapDelete_mapSet]

theorem sremChannel_localTimers (st : RedisTimerState) (ch : String) (id : Nat) :
    (sremChannel st ch id).localTimers = st.localTimers := by
  unfold sremChannel
  cases mapLookup st.channelSets ch <;> rfl

theorem sremChannel_meta (st : RedisTimerState) (ch : String) (id : Nat) :
    (sremChannel st ch id).meta = st.meta := by
  unfold sremChannel
  cases mapLookup st.channelSets ch <;> rfl

theorem sremChannel_stopFlags (st : RedisTimerState) (ch : String) (id : Nat) :
    (sremChannel st ch id).stopFlags = st.stopFlags := by
  unfold sremChannel
  cases mapLookup st.channelSets ch <;> rfl

/-- A non-terminating Redis firing: count up locally and in the shared
metadata, fire `onTrigger`, keep running. -/
theorem redisTick_normal (st : RedisTimerState) (id : Nat) (i now : Int)
    (t : TimerInstance)
    (hflag : stopFlagExists st id now = false)
    (hl : mapLookup st.localTimers id = some t)
    (hrep : maxRepeatReached t.maxRepeat (t.triggerCount + 1) = false)
    (hdur : ¬ (t.maxDurationMs < now - t.startedAt + i)) :
    redisTick st true id i now =
      ({ st with
          localTimers :=
            mapSet st.localTimers id { t with triggerCount := t.triggerCount + 1 }
          meta := updateMetaTc st.meta id (t.triggerCount + 1) },
       true, [.tick id (t.triggerCount + 1)]) := by
  simp [redisTick, hflag, hl, hrep, hdur]

/-- A Redis firing that exhausts `maxRepeat`: halt, remove the local
entry, clean the shared keys, final `onTrigger`, `onComplete`. -/
theorem redisTick_repeat_end (st : RedisTimerState) (id : Nat) (i now : Int)
    (t : TimerInstance)
    (hflag : stopFlagExists st id now = false)
    (hl : mapLookup st.localTimers id = some t)
    (hrep : maxRepeatReached t.maxRepeat (t.triggerCount + 1) = true) :
    redisTick st true id i now =
      (sremChannel
        { st with localTimers := mapDelete st.localTimers id
                  meta := mapDelete st.meta id } t.channelId id,
       false,
       [.cleared id, .removed id, .tick id (t.triggerCount + 1),
        .finish id (t.triggerCount + 1) .repeatExhausted]) := by
  simp [redisTick, hflag, hl, hrep, cleanupRedisKeys, mapDelete_mapSet,
    mapDelete_updateMetaTc]

/-- A Redis firing whose next tick would exceed `maxDurationMs`. -/
theorem redisTick_duration_end (st : RedisTimerState) (id : Nat) (i now : Int)
    (t : TimerInstance)
    (hflag : stopFlagExists st id now = false)
    (hl : mapLookup st.localTimers id = some t)
    (hrep : maxRepeatReached t.maxRepeat (t.triggerCount + 1) = false)
    (hdur : t.maxDurationMs < now - t.startedAt + i) :
    redisTick st true id i now =
      (sremChannel
        { st with localTimers := mapDelete st.localTimers id
                  meta := mapDelete st.meta id } t.channelId id,
       false,
       [.cleared id, .removed id, .tick id (t.triggerCount + 1),
        .finish id (t.triggerCount + 1) .maxDuration]) := by
  simp [redisTick, hflag, hl, hrep, hdur, cleanupRedisKeys, mapDelete_mapSet,
    mapDelete_updateMetaTc]

/-- A memory timer created with `maxRepeat = 3` (and a duration cap that
does not intervene) fires `onTrigger` on ticks 1, 2, 3, halts on tick 3
with `onComplete("repeat-exhausted")`, and is gone from the store. -/
theorem mem_timer_three_aux (s : MemTimerStore) (cfg : TimerConfig) (t0 : Int)
    (s' : MemTimerStore) (t : TimerInstance)
    (hwf : mapWF s.timers)
    (hok : memCreate s cfg t0 = .ok (s', t))
    (hrep : cfg.maxRepeat = some 3)
    (hdur : 3 * ((cfg.intervalMinutes : Int) * 60000) ≤ s.maxDurationMs) :
    ∀ n, 3 ≤ n →
      (memRun t.id ((cfg.intervalMinutes : Int) * 60000) s' true t0 n).2.2 =
        [.tick t.id 1, .tick t.id 2, .cleared t.id, .removed t.id,
         .tick t.id 3, .finish t.id 3 .repeatExhausted]
      ∧ memGet (memRun t.id ((cfg.intervalMinutes : Int) * 60000) s' true t0 n).1
          t.id = none := by
  intro n hn
  have hipos : (0 : Int) ≤ (cfg.intervalMinutes : Int) * 60000 :=
    mul_nonneg (Int.natCast_nonneg _) (by norm_num)
  unfold memCreate at hok
  cases hval : validateTimer (s.channelCount cfg.channelId) cfg with
  | error e =>
      rw [hval] at hok
      exact absurd hok (by simp)
  | ok u =>
      rw [hval] at hok
      simp only at hok
      injection hok with hpair
      obtain ⟨hs, ht⟩ := Prod.mk.inj hpair
      subst hs
      subst ht
      obtain ⟨m, rfl⟩ : ∃ m, n = m + 3 := ⟨n - 3, by omega⟩
      set i : Int := (cfg.intervalMinutes : Int) * 60000 with hidef
      set id0 : Nat := s.nextId with hid0
      set T0 : TimerInstance :=
        { id := id0, guildId := cfg.guildId, channelId := cfg.channelId
          name := cfg.name, intervalMinutes := cfg.intervalMinutes
          maxRepeat := cfg.maxRepeat, triggerCount := 0, startedAt := t0
          maxDurationMs := s.maxDurationMs, startedBy := cfg.startedBy } with hT0

      have hTid : T0.id = id0 := rfl
      rw [hTid]
      set T1 : TimerInstance := { T0 with triggerCount := 1 } with hT1
      set T2 : TimerInstance := { T0 with triggerCount := 2 } with hT2
      set S0 : MemTimerStore :=
        { timers := mapSet s.timers id0 T0, nextId := id0 + 1
          maxDurationMs := s.maxDurationMs } with hS0
      set S1 : MemTimerStore :=
        { timers := mapSet s.timers id0 T1, nextId := id0 + 1
          maxDurationMs := s.maxDurationMs } with hS1
      set S2 : MemTimerStore :=
        { timers := mapSet s.timers id0 T2, nextId := id0 + 1
          maxDurationMs := s.maxDurationMs } with hS2
      set Sf : MemTimerStore :=
        { timers := mapDelete s.timers id0, nextId := id0 + 1
          maxDurationMs := s.maxDurationMs } with hSf
      have h1 : memTick S0 true id0 i (t0 + i) = (S1, true, [.tick id0 1]) := by
        rw [memTick_normal S0 id0 i (t0 + i) T0
          (by rw [hS0]; exact mapLookup_mapSet_self _ _ _)
          (by rw [hT0, hrep]; rfl)
          (by rw [hT0]; simp only; omega)]
        rw [hS0, hS1]
        simp [mapSet_mapSet, hT0, hT1]
      have h2 : memTick S1 true id0 i (t0 + i + i) = (S2, true, [.tick id0 2]) := by
        rw [memTick_normal S1 id0 i (t0 + i + i) T1
          (by rw [hS1]; exact mapLookup_mapSet_self _ _ _)
          (by rw [hT1, hT0, hrep]; rfl)
          (by rw [hT1, hT0]; simp only; omega)]
        rw [hS1, hS2]
        simp [mapSet_mapSet, hT0, hT1, hT2]
      have h3 : memTick S2 true id0 i (t0 + i + i + i) =
          (Sf, false,
           [.cleared id0, .removed id0, .tick id0 3,
            .finish id0 3 .repeatExhausted]) := by
        rw [memTick_repeat_end S2 id0 i (t0 + i + i + i) T2
          (by rw [hS2]; exact mapLookup_mapSet_self _ _ _)
          (by rw [hT2, hT0, hrep]; rfl)]
        rw [hS2, hSf]
        simp [mapDelete_mapSet, hT2, hT0]
      have hms : m + 3 = Nat.succ (Nat.succ (Nat.succ m)) := rfl
      have hrun : memRun id0 i S0 true t0 (m + 3) =
          (Sf, false,
           [.tick id0 1, .tick id0 2, .cleared id0, .removed id0,
            .tick id0 3, .finish id0 3 .repeatExhausted]) := by
        rw [hms, memRun, memRun, memRun]
        simp only [h1, h2, h3, memRun_halted]
        rfl
      refine ⟨?_, ?_⟩
      · rw [hrun]
      · rw [hrun]
        show mapLookup Sf.timers id0 = none
        rw [hSf]
        exact mapLookup_mapDelete_self _ _ hwf

/-- The Redis analogue of `mem_timer_three_aux`: same trace, and both the
local entry and the shared metadata are gone afterwards.  Requires that no
stale stop marker exists for the new id. -/
theorem redis_timer_three_aux (st : RedisTimerState) (cfg : TimerConfig)
    (t0 : Int) (st' : RedisTimerState) (t : TimerInstance)
    (hwfL : mapWF st.localTimers) (hwfM : mapWF st.meta)
    (hsf : mapLookup st.stopFlags (st.nextId + 1) = none)
    (hok : redisCreate st cfg t0 = .ok (st', t))
    (hrep : cfg.maxRepeat = some 3)
    (hdur : 3 * ((cfg.intervalMinutes : Int) * 60000) ≤ st.maxDurationMs) :
    ∀ n, 3 ≤ n →
      (redisRun t.id ((cfg.intervalMinutes : Int) * 60000) st' true t0 n).2.2 =
        [.tick t.id 1, .tick t.id 2, .cleared t.id, .removed t.id,
         .tick t.id 3, .finish t.id 3 .repeatExhausted]
      ∧ redisGet (redisRun t.id ((cfg.intervalMinutes : Int) * 60000) st' true t0 n).1
          t.id = none := by
  intro n hn
  have hipos : (0 : Int) ≤ (cfg.intervalMinutes : Int) * 60000 :=
    mul_nonneg (Int.natCast_nonneg _) (by norm_num)
  unfold redisCreate at hok
  cases hval : validateTimer
      ((mapLookup st.channelSets cfg.channelId).getD []).length cfg with
  | error e =>
      rw [hval] at hok
      exact absurd hok (by simp)
  | ok u =>
      rw [hval] at hok
      simp only [saddChannel] at hok
      injection hok with hpair
      obtain ⟨hs, ht⟩ := Prod.mk.inj hpair
      subst hs
      subst ht
      obtain ⟨m, rfl⟩ : ∃ m, n = m + 3 := ⟨n - 3, by omega⟩
      set i : Int := (cfg.intervalMinutes : Int) * 60000 with hidef
      set id0 : Nat := st.nextId + 1 with hid0
      set T0 : TimerInstance :=
        { id := id0, guildId := cfg.guildId, channelId := cfg.channelId
          name := cfg.name, intervalMinutes := cfg.intervalMinutes
          maxRepeat := cfg.maxRepeat, triggerCount := 0, startedAt := t0
          maxDurationMs := st.maxDurationMs, startedBy := cfg.startedBy } with hT0
      have hTid : T0.id = id0 := rfl
      rw [hTid]
      set T1 : TimerInstance := { T0 with triggerCount := 1 } with hT1
      set T2 : TimerInstance := { T0 with triggerCount := 2 } with hT2
      set CS1 : List (String × List Nat) :=
        mapSet st.channelSets cfg.channelId
          (if id0 ∈ (mapLookup st.channelSets cfg.channelId).getD [] then
            (mapLookup st.channelSets cfg.channelId).getD []
          else (mapLookup st.channelSets cfg.channelId).getD [] ++ [id0]) with hCS1
      set S0 : RedisTimerState :=
        { localTimers := mapSet st.localTimers id0 T0
          meta := mapSet st.meta id0 T0, stopFlags := st.stopFlags
          channelSets := CS1, nextId := id0
          maxDurationMs := st.maxDurationMs } with hS0
      set S1 : RedisTimerState :=
        { localTimers := mapSet st.localTimers id0 T1
          meta := mapSet st.meta id0 T1, stopFlags := st.stopFlags
          channelSets := CS1, nextId := id0
          maxDurationMs := st.maxDurationMs } with hS1
      set S2 : RedisTimerState :=
        { localTimers := mapSet st.localTimers id0 T2
          meta := mapSet st.meta id0 T2, stopFlags := st.stopFlags
          channelSets := CS1, nextId := id0
          maxDurationMs := st.maxDurationMs } with hS2
      set Spre : RedisTimerState :=
        { localTimers := mapDelete st.localTimers id0
          meta := mapDelete st.meta id0, stopFlags := st.stopFlags
          channelSets := CS1, nextId := id0
          maxDurationMs := st.maxDurationMs } with hSpre
      have h1 : redisTick S0 true id0 i (t0 + i) = (S1, true, [.tick id0 1]) := by
        rw [redisTick_normal S0 id0 i (t0 + i) T0
          (by simp [stopFlagExists, hS0, hsf])
          (by rw [hS0]; exact mapLookup_mapSet_self _ _ _)
          (by rw [hT0, hrep]; rfl)
          (by rw [hT0]; simp only; omega)]
        rw [hS0, hS1]
        simp [mapSet_mapSet, updateMetaTc, mapLookup_mapSet_self, hT0, hT1]
      have h2 : redisTick S1 true id0 i (t0 + i + i) = (S2, true, [.tick id0 2]) := by
        rw [redisTick_normal S1 id0 i (t0 + i + i) T1
          (by simp [stopFlagExists, hS1, hsf])
          (by rw [hS1]; exact mapLookup_mapSet_self _ _ _)
          (by rw [hT1, hT0, hrep]; rfl)
          (by rw [hT1, hT0]; simp only; omega)]
        rw [hS1, hS2]
        simp [mapSet_mapSet, updateMetaTc, mapLookup_mapSet_self, hT0, hT1, hT2]
      have h3 : redisTick S2 true id0 i (t0 + i + i + i) =
          (sremChannel Spre cfg.channelId id0, false,
           [.cleared id0, .removed id0, .tick id0 3,
            .finish id0 3 .repeatExhausted]) := by
        rw [redisTick_repeat_end S2 id0 i (t0 + i + i + i) T2
          (by simp [stopFlagExists, hS2, hsf])
          (by rw [hS2]; exact mapLookup_mapSet_self _ _ _)
          (by rw [hT2, hT0, hrep]; rfl)]
        rw [hS2, hSpre]
        simp [mapDelete_mapSet, hT2, hT0]
      have hms : m + 3 = Nat.succ (Nat.succ (Nat.succ m)) := rfl
      have hrun : redisRun id0 i S0 true t0 (m + 3) =
          (sremChannel Spre cfg.channelId id0, false,
           [.tick id0 1, .tick id0 2, .cleared id0, .removed id0,
            .tick id0 3, .finish id0 3 .repeatExhausted]) := by
        rw [hms, redisRun, redisRun, redisRun]
        simp only [h1, h2, h3, redisRun_halted]
        rfl
      refine ⟨?_, ?_⟩
      · rw [hrun]
      · rw [hrun]
        show redisGet (sremChannel Spre cfg.channelId id0) id0 = none
        unfold redisGet
        rw [sremChannel_localTimers, sremChannel_meta, hSpre]
        simp only
        rw [mapLookup_mapDelete_self _ _ hwfL, mapLookup_mapDelete_self _ _ hwfM]

/-- C3: a timer created with `maxRepeat = 3` fires `onTrigger` (onTick)
exactly 3 times and `onComplete` (onFinish) exactly once with the
`repeat-exhausted` reason — the explicit trace shows ticks 1, 2, 3 and a
single finish, the third tick preceding it — and `get(id)` is absent
afterward, on both the memory and the Redis backend. -/
theorem timer_three_ticks_then_finish :
    (∀ (s : MemTimerStore) (cfg : TimerConfig) (t0 : Int) (s' : MemTimerStore)
        (t : TimerInstance),
      mapWF s.timers →
      memCreate s cfg t0 = .ok (s', t) →
      cfg.maxRepeat = some 3 →
      3 * ((cfg.intervalMinutes : Int) * 60000) ≤ s.maxDurationMs →
      ∀ n, 3 ≤ n →
        (memRun t.id ((cfg.intervalMinutes : Int) * 60000) s' true t0 n).2.2 =
          [.tick t.id 1, .tick t.id 2, .cleared t.id, .removed t.id,
           .tick t.id 3, .finish t.id 3 .repeatExhausted]
        ∧ memGet (memRun t.id ((cfg.intervalMinutes : Int) * 60000) s' true t0 n).1
            t.id = none)
    ∧ (∀ (st : RedisTimerState) (cfg : TimerConfig) (t0 : Int)
        (st' : RedisTimerState) (t : TimerInstance),
      mapWF st.localTimers →
      mapWF st.meta →
      mapLookup st.stopFlags (st.nextId + 1) = none →
      redisCreate st cfg t0 = .ok (st', t) →
      cfg.maxRepeat = some 3 →
      3 * ((cfg.intervalMinutes : Int) * 60000) ≤ st.maxDurationMs →
      ∀ n, 3 ≤ n →
        (redisRun t.id ((cfg.intervalMinutes : Int) * 60000) st' true t0 n).2.2 =
          [.tick t.id 1, .tick t.id 2, .cleared t.id, .removed t.id,
           .tick t.id 3, .finish t.id 3 .repeatExhausted]
        ∧ redisGet (redisRun t.id ((cfg.intervalMinutes : Int) * 60000) st' true t0 n).1
            t.id = none) :=
  ⟨mem_timer_three_aux, redis_timer_three_aux⟩

/-- A concrete timer configuration: 1-minute interval, `maxRepeat = 3`. -/
def cfgThree : TimerConfig :=
  { guildId := "g", channelId := "c", name := "brew"
    intervalMinutes := 1, maxRepeat := some 3, startedBy := "u" }

/-- The instance the C3 witness timer creates. -/
def timerBrew : TimerInstance :=
  { id := 1, guildId := "g", channelId := "c", name := "brew"
    intervalMinutes := 1, maxRepeat := some 3, triggerCount := 0
    startedAt := 0, maxDurationMs := 7200000, startedBy := "u" }

/-- Witness for C3: the 1-minute / 3-repeat timer on empty stores. -/
theorem timer_three_ticks_then_finish_witness :
    ((memRun 1 60000
        { timers := [(1, timerBrew)], nextId := 2, maxDurationMs := 7200000 }
        true 0 3).2.2 =
      [.tick 1 1, .tick 1 2, .cleared 1, .removed 1,
       .tick 1 3, .finish 1 3 .repeatExhausted])
    ∧ ((redisRun 1 60000
        { localTimers := [(1, timerBrew)], meta := [(1, timerBrew)]
          stopFlags := [], channelSets := [("c", [1])], nextId := 1
          maxDurationMs := 7200000 }
        true 0 3).2.2 =
      [.tick 1 1, .tick 1 2, .cleared 1, .removed 1,
       .tick 1 3, .finish 1 3 .repeatExhausted]) :=
  ⟨(timer_three_ticks_then_finish.1
      { timers := [], nextId := 1, maxDurationMs := 7200000 } cfgThree 0
      { timers := [(1, timerBrew)], nextId := 2, maxDurationMs := 7200000 }
      timerBrew (by decide) rfl rfl (by decide) 3 (by decide)).1,
   (timer_three_ticks_then_finish.2
      { localTimers := [], meta := [], stopFlags := [], channelSets := []
        nextId := 0, maxDurationMs := 7200000 } cfgThree 0
      { localTimers := [(1, timerBrew)], meta := [(1, timerBrew)]
        stopFlags := [], channelSets := [("c", [1])], nextId := 1
        maxDurationMs := 7200000 }
      timerBrew (by decide) (by decide) rfl rfl rfl (by decide) 3 (by decide)).1⟩

/-- A memory timer with no `maxRepeat` and `maxDurationMs = 5·intervalMs`
runs ticks 1–4 normally and self-terminates on tick 5 with
`"max-duration"`; every fired tick happens with elapsed time within the
cap. -/
theorem mem_timer_lifetime_aux (s : MemTimerStore) (cfg : TimerConfig) (t0 : Int)
    (s' : MemTimerStore) (t : TimerInstance)
    (hwf : mapWF s.timers)
    (hok : memCreate s cfg t0 = .ok (s', t))
    (hrep : cfg.maxRepeat = none)
    (hD : s.maxDurationMs = 5 * ((cfg.intervalMinutes : Int) * 60000))
    (hmin : 1 ≤ cfg.intervalMinutes) :
    ∀ n, 5 ≤ n →
      (memRun t.id ((cfg.intervalMinutes : Int) * 60000) s' true t0 n).2.2 =
        [.tick t.id 1, .tick t.id 2, .tick t.id 3, .tick t.id 4,
         .cleared t.id, .removed t.id, .tick t.id 5,
         .finish t.id 5 .maxDuration]
      ∧ memGet (memRun t.id ((cfg.intervalMinutes : Int) * 60000) s' true t0 n).1
          t.id = none
      ∧ (∀ tc : Nat,
          TimerEv.tick t.id tc ∈
            (memRun t.id ((cfg.intervalMinutes : Int) * 60000) s' true t0 n).2.2 →
          (tc : Int) * ((cfg.intervalMinutes : Int) * 60000) ≤ s.maxDurationMs) := by
  intro n hn
  have hipos : (0 : Int) ≤ (cfg.intervalMinutes : Int) * 60000 :=
    mul_nonneg (Int.natCast_nonneg _) (by norm_num)
  have hmin' : (1 : Int) ≤ (cfg.intervalMinutes : Int) := by exact_mod_cast hmin
  unfold memCreate at hok
  cases hval : validateTimer (s.channelCount cfg.channelId) cfg with
  | error e =>
      rw [hval] at hok
      exact absurd hok (by simp)
  | ok u =>
      rw [hval] at hok
      simp only at hok
      injection hok with hpair
      obtain ⟨hs, ht⟩ := Prod.mk.inj hpair
      subst hs
      subst ht
      obtain ⟨m, rfl⟩ : ∃ m, n = m + 5 := ⟨n - 5, by omega⟩
      set i : Int := (cfg.intervalMinutes : Int) * 60000 with hidef
      have hpos : (0 : Int) < i := by
        rw [hidef]
        nlinarith
      set id0 : Nat := s.nextId with hid0
      set T0 : TimerInstance :=
        { id := id0, guildId := cfg.guildId, channelId := cfg.channelId
          name := cfg.name, intervalMinutes := cfg.intervalMinutes
          maxRepeat := cfg.maxRepeat, triggerCount := 0, startedAt := t0
          maxDurationMs := s.maxDurationMs, startedBy := cfg.startedBy } with hT0
      have hTid : T0.id = id0 := rfl
      rw [hTid]
      set T1 : TimerInstance := { T0 with triggerCount := 1 } with hT1
      set T2 : TimerInstance := { T0 with triggerCount := 2 } with hT2
      set T3 : TimerInstance := { T0 with triggerCount := 3 } with hT3
      set T4 : TimerInstance := { T0 with triggerCount := 4 } with hT4
      set S0 : MemTimerStore :=
        { timers := mapSet s.timers id0 T0, nextId := id0 + 1
          maxDurationMs := s.maxDurationMs } with hS0
      set S1 : MemTimerStore :=
        { timers := mapSet s.timers id0 T1, nextId := id0 + 1
          maxDurationMs := s.maxDurationMs } with hS1
      set S2 : MemTimerStore :=
        { timers := mapSet s.timers id0 T2, nextId := id0 + 1
          maxDurationMs := s.maxDurationMs } with hS2
      set S3 : MemTimerStore :=
        { timers := mapSet s.timers id0 T3, nextId := id0 + 1
          maxDurationMs := s.maxDurationMs } with hS3
      set S4 : MemTimerStore :=
        { timers := mapSet s.timers id0 T4, nextId := id0 + 1
          maxDurationMs := s.maxDurationMs } with hS4
      set Sf : MemTimerStore :=
        { timers := mapDelete s.timers id0, nextId := id0 + 1
          maxDurationMs := s.maxDurationMs } with hSf
      have h1 : memTick S0 true id0 i (t0 + i) = (S1, true, [.tick id0 1]) := by
        rw [memTick_normal S0 id0 i (t0 + i) T0
          (by rw [hS0]; exact mapLookup_mapSet_self _ _ _)
          (by rw [hT0, hrep]; rfl)
          (by rw [hT0]; simp only; rw [hD]; omega)]
        rw [hS0, hS1]
        simp [mapSet_mapSet, hT0, hT1]
      have h2 : memTick S1 true id0 i (t0 + i + i) = (S2, true, [.tick id0 2]) := by
        rw [memTick_normal S1 id0 i (t0 + i + i) T1
          (by rw [hS1]; exact mapLookup_mapSet_self _ _ _)
          (by rw [hT1, hT0, hrep]; rfl)
          (by rw [hT1, hT0]; simp only; rw [hD]; omega)]
        rw [hS1, hS2]
        simp [mapSet_mapSet, hT0, hT1, hT2]
      have h3 : memTick S2 true id0 i (t0 + i + i + i) =
          (S3, true, [.tick id0 3]) := by
        rw [memTick_normal S2 id0 i (t0 + i + i + i) T2
          (by rw [hS2]; exact mapLookup_mapSet_self _ _ _)
          (by rw [hT2, hT0, hrep]; rfl)
          (by rw [hT2, hT0]; simp only; rw [hD]; omega)]
        rw [hS2, hS3]
        simp [mapSet_mapSet, hT0, hT2, hT3]
      have h4 : memTick S3 true id0 i (t0 + i + i + i + i) =
          (S4, true, [.tick id0 4]) := by
        rw [memTick_normal S3 id0 i (t0 + i + i + i + i) T3
          (by rw [hS3]; exact mapLookup_mapSet_self _ _ _)
          (by rw [hT3, hT0, hrep]; rfl)
          (by rw [hT3, hT0]; simp only; rw [hD]; omega)]
        rw [hS3, hS4]
        simp [mapSet_mapSet, hT0, hT3, hT4]
      have h5 : memTick S4 true id0 i (t0 + i + i + i + i + i) =
          (Sf, false,
           [.cleared id0, .removed id0, .tick id0 5,
            .finish id0 5 .maxDuration]) := by
        rw [memTick_duration_end S4 id0 i (t0 + i + i + i + i + i) T4
          (by rw [hS4]; exact mapLookup_mapSet_self _ _ _)
          (by rw [hT4, hT0, hrep]; rfl)
          (by rw [hT4, hT0]; simp only; rw [hD]; omega)]
        rw [hS4, hSf]
        simp [mapDelete_mapSet, hT4, hT0]
      have hms : m + 5 =
          Nat.succ (Nat.succ (Nat.succ (Nat.succ (Nat.succ m)))) := rfl
      have hrun : memRun id0 i S0 true t0 (m + 5) =
          (Sf, false,
           [.tick id0 1, .tick id0 2, .tick id0 3, .tick id0 4,
            .cleared id0, .removed id0, .tick id0 5,
            .finish id0 5 .maxDuration]) := by
        rw [hms, memRun, memRun, memRun, memRun, memRun]
        simp only [h1, h2, h3, h4, h5, memRun_halted]
        rfl
      refine ⟨?_, ?_, ?_⟩
      · rw [hrun]
      · rw [hrun]
        show mapLookup Sf.timers id0 = none
        rw [hSf]
        exact mapLookup_mapDelete_self _ _ hwf
      · intro tc htc
        rw [hrun] at htc
        simp only [List.mem_cons, List.not_mem_nil, or_false] at htc
        rcases htc with h | h | h | h | h | h | h | h <;>
          first
          | (cases h; rw [hD]; push_cast; omega)
          | (exact absurd h (by simp))

/-- Redis analogue of `mem_timer_lifetime_aux`. -/
theorem redis_timer_lifetime_aux (st : RedisTimerState) (cfg : TimerConfig)
    (t0 : Int) (st' : RedisTimerState) (t : TimerInstance)
    (hwfL : mapWF st.localTimers) (hwfM : mapWF st.meta)
    (hsf : mapLookup st.stopFlags (st.nextId + 1) = none)
    (hok : redisCreate st cfg t0 = .ok (st', t))
    (hrep : cfg.maxRepeat = none)
    (hD : st.maxDurationMs = 5 * ((cfg.intervalMinutes : Int) * 60000))
    (hmin : 1 ≤ cfg.intervalMinutes) :
    ∀ n, 5 ≤ n →
      (redisRun t.id ((cfg.intervalMinutes : Int) * 60000) st' true t0 n).2.2 =
        [.tick t.id 1, .tick t.id 2, .tick t.id 3, .tick t.id 4,
         .cleared t.id, .removed t.id, .tick t.id 5,
         .finish t.id 5 .maxDuration]
      ∧ redisGet (redisRun t.id ((cfg.intervalMinutes : Int) * 60000) st' true t0 n).1
          t.id = none
      ∧ (∀ tc : Nat,
          TimerEv.tick t.id tc ∈
            (redisRun t.id ((cfg.intervalMinutes : Int) * 60000) st' true t0 n).2.2 →
          (tc : Int) * ((cfg.intervalMinutes : Int) * 60000) ≤ st.maxDurationMs) := by
  intro n hn
  have hipos : (0 : Int) ≤ (cfg.intervalMinutes : Int) * 60000 :=
    mul_nonneg (Int.natCast_nonneg _) (by norm_num)
  have hmin' : (1 : Int) ≤ (cfg.intervalMinutes : Int) := by exact_mod_cast hmin
  unfold redisCreate at hok
  cases hval : validateTimer
      ((mapLookup st.channelSets cfg.channelId).getD []).length cfg with
  | error e =>
      rw [hval] at hok
      exact absurd hok (by simp)
  | ok u =>
      rw [hval] at hok
      simp only [saddChannel] at hok
      injection hok with hpair
      obtain ⟨hs, ht⟩ := Prod.mk.inj hpair
      subst hs
      subst ht
      obtain ⟨m, rfl⟩ : ∃ m, n = m + 5 := ⟨n - 5, by omega⟩
      set i : Int := (cfg.intervalMinutes : Int) * 60000 with hidef
      have hpos : (0 : Int) < i := by
        rw [hidef]
        nlinarith
      set id0 : Nat := st.nextId + 1 with hid0
      set T0 : TimerInstance :=
        { id := id0, guildId := cfg.guildId, channelId := cfg.channelId
          name := cfg.name, intervalMinutes := cfg.intervalMinutes
          maxRepeat := cfg.maxRepeat, triggerCount := 0, startedAt := t0
          maxDurationMs := st.maxDurationMs, startedBy := cfg.startedBy } with hT0
      have hTid : T0.id = id0 := rfl
      rw [hTid]
      set T1 : TimerInstance := { T0 with triggerCount := 1 } with hT1
      set T2 : TimerInstance := { T0 with triggerCount := 2 } with hT2
      set T3 : TimerInstance := { T0 with triggerCount := 3 } with hT3
      set T4 : TimerInstance := { T0 with triggerCount := 4 } with hT4
      set CS1 : List (String × List Nat) :=
        mapSet st.channelSets cfg.channelId
          (if id0 ∈ (mapLookup st.channelSets cfg.channelId).getD [] then
            (mapLookup st.channelSets cfg.channelId).getD []
          else (mapLookup st.channelSets cfg.channelId).getD [] ++ [id0]) with hCS1
      set S0 : RedisTimerState :=
        { localTimers := mapSet st.localTimers id0 T0
          meta := mapSet st.meta id0 T0, stopFlags := st.stopFlags
          channelSets := CS1, nextId := id0
          maxDurationMs := st.maxDurationMs } with hS0
      set S1 : RedisTimerState :=
        { localTimers := mapSet st.localTimers id0 T1
          meta := mapSet st.meta id0 T1, stopFlags := st.stopFlags
          channelSets := CS1, nextId := id0
          maxDurationMs := st.maxDurationMs } with hS1
      set S2 : RedisTimerState :=
        { localTimers := mapSet st.localTimers id0 T2
          meta := mapSet st.meta id0 T2, stopFlags := st.stopFlags
          channelSets := CS1, nextId := id0
          maxDurationMs := st.maxDurationMs } with hS2
      set S3 : RedisTimerState :=
        { localTimers := mapSet st.localTimers id0 T3
          meta := mapSet st.meta id0 T3, stopFlags := st.stopFlags
          channelSets := CS1, nextId := id0
          maxDurationMs := st.maxDurationMs } with hS3
      set S4 : RedisTimerState :=
        { localTimers := mapSet st.localTimers id0 T4
          meta := mapSet st.meta id0 T4, stopFlags := st.stopFlags
          channelSets := CS1, nextId := id0
          maxDurationMs := st.maxDurationMs } with hS4
      set Spre : RedisTimerState :=
        { localTimers := mapDelete st.localTimers id0
          meta := mapDelete st.meta id0, stopFlags := st.stopFlags
          channelSets := CS1, nextId := id0
          maxDurationMs := st.maxDurationMs } with hSpre
      have h1 : redisTick S0 true id0 i (t0 + i) = (S1, true, [.tick id0 1]) := by
        rw [redisTick_normal S0 id0 i (t0 + i) T0
          (by simp [stopFlagExists, hS0, hsf])
          (by rw [hS0]; exact mapLookup_mapSet_self _ _ _)
          (by rw [hT0, hrep]; rfl)
          (by rw [hT0]; simp only; rw [hD]; omega)]
        rw [hS0, hS1]
        simp [mapSet_mapSet, updateMetaTc, mapLookup_mapSet_self, hT0, hT1]
      have h2 : redisTick S1 true id0 i (t0 + i + i) = (S2, true, [.tick id0 2]) := by
        rw [redisTick_normal S1 id0 i (t0 + i + i) T1
          (by simp [stopFlagExists, hS1, hsf])
          (by rw [hS1]; exact mapLookup_mapSet_self _ _ _)
          (by rw [hT1, hT0, hrep]; rfl)
          (by rw [hT1, hT0]; simp only; rw [hD]; omega)]
        rw [hS1, hS2]
        simp [mapSet_mapSet, updateMetaTc, mapLookup_mapSet_self, hT0, hT1, hT2]
      have h3 : redisTick S2 true id0 i (t0 + i + i + i) =
          (S3, true, [.tick id0 3]) := by
        rw [redisTick_normal S2 id0 i (t0 + i + i + i) T2
          (by simp [stopFlagExists, hS2, hsf])
          (by rw [hS2]; exact mapLookup_mapSet_self _ _ _)
          (by rw [hT2, hT0, hrep]; rfl)
          (by rw [hT2, hT0]; simp only; rw [hD]; omega)]
        rw [hS2, hS3]
        simp [mapSet_mapSet, updateMetaTc, mapLookup_mapSet_self, hT0, hT2, hT3]
      have h4 : redisTick S3 true id0 i (t0 + i + i + i + i) =
          (S4, true, [.tick id0 4]) := by
        rw [redisTick_normal S3 id0 i (t0 + i + i + i + i) T3
          (by simp [stopFlagExists, hS3, hsf])
          (by rw [hS3]; exact mapLookup_mapSet_self _ _ _)
          (by rw [hT3, hT0, hrep]; rfl)
          (by rw [hT3, hT0]; simp only; rw [hD]; omega)]
        rw [hS3, hS4]
        simp [mapSet_mapSet, updateMetaTc, mapLookup_mapSet_self, hT0, hT3, hT4]
      have h5 : redisTick S4 true id0 i (t0 + i + i + i + i + i) =
          (sremChannel Spre cfg.channelId id0, false,
           [.cleared id0, .removed id0, .tick id0 5,
            .finish id0 5 .maxDuration]) := by
        rw [redisTick_duration_end S4 id0 i (t0 + i + i + i + i + i) T4
          (by simp [stopFlagExists, hS4, hsf])
          (by rw [hS4]; exact mapLookup_mapSet_self _ _ _)
          (by rw [hT4, hT0, hrep]; rfl)
          (by rw [hT4, hT0]; simp only; rw [hD]; omega)]
        rw [hS4, hSpre]
        simp [mapDelete_mapSet, hT4, hT0]
      have hms : m + 5 =
          Nat.succ (Nat.succ (Nat.succ (Nat.succ (Nat.succ m)))) := rfl
      have hrun : redisRun id0 i S0 true t0 (m + 5) =
          (sremChannel Spre cfg.channelId id0, false,
           [.tick id0 1, .tick id0 2, .tick id0 3, .tick id0 4,
            .cleared id0, .removed id0, .tick id0 5,
            .finish id0 5 .maxDuration]) := by
        rw [hms, redisRun, redisRun, redisRun, redisRun, redisRun]
        simp only [h1, h2, h3, h4, h5, redisRun_halted]
        rfl
      refine ⟨?_, ?_, ?_⟩
      · rw [hrun]
      · rw [hrun]
        show redisGet (sremChannel Spre cfg.channelId id0) id0 = none
        unfold redisGet
        rw [sremChannel_localTimers, sremChannel_meta, hSpre]
        simp only
        rw [mapLookup_mapDelete_self _ _ hwfL, mapLookup_mapDelete_self _ _ hwfM]
      · intro tc htc
        rw [hrun] at htc
        simp only [List.mem_cons, List.not_mem_nil, or_false] at htc
        rcases htc with h | h | h | h | h | h | h | h <;>
          first
          | (cases h; rw [hD]; push_cast; omega)
          | (exact absurd h (by simp))

/-- C4: a timer with no maximum occurrence count and a lifetime cap of
`5 × intervalMs` self-terminates with `"max-duration"` exactly on its 5th
tick — at, never after, the 5th — because the forward-looking check
compares `elapsed + intervalMs` against the cap; consequently every fired
`onTick` happens while `triggerCount·intervalMs ≤ maxDurationMs`.  Both
backends. -/
theorem timer_lifetime_cap_five_ticks :
    (∀ (s : MemTimerStore) (cfg : TimerConfig) (t0 : Int) (s' : MemTimerStore)
        (t : TimerInstance),
      mapWF s.timers →
      memCreate s cfg t0 = .ok (s', t) →
      cfg.maxRepeat = none →
      s.maxDurationMs = 5 * ((cfg.intervalMinutes : Int) * 60000) →
      1 ≤ cfg.intervalMinutes →
      ∀ n, 5 ≤ n →
        (memRun t.id ((cfg.intervalMinutes : Int) * 60000) s' true t0 n).2.2 =
          [.tick t.id 1, .tick t.id 2, .tick t.id 3, .tick t.id 4,
           .cleared t.id, .removed t.id, .tick t.id 5,
           .finish t.id 5 .maxDuration]
        ∧ memGet (memRun t.id ((cfg.intervalMinutes : Int) * 60000) s' true t0 n).1
            t.id = none
        ∧ (∀ tc : Nat,
            TimerEv.tick t.id tc ∈
              (memRun t.id ((cfg.intervalMinutes : Int) * 60000) s' true t0 n).2.2 →
            (tc : Int) * ((cfg.intervalMinutes : Int) * 60000) ≤ s.maxDurationMs))
    ∧ (∀ (st : RedisTimerState) (cfg : TimerConfig) (t0 : Int)
        (st' : RedisTimerState) (t : TimerInstance),
      mapWF st.localTimers →
      mapWF st.meta →
      mapLookup st.stopFlags (st.nextId + 1) = none →
      redisCreate st cfg t0 = .ok (st', t) →
      cfg.maxRepeat = none →
      st.maxDurationMs = 5 * ((cfg.intervalMinutes : Int) * 60000) →
      1 ≤ cfg.intervalMinutes →
      ∀ n, 5 ≤ n →
        (redisRun t.id ((cfg.intervalMinutes : Int) * 60000) st' true t0 n).2.2 =
          [.tick t.id 1, .tick t.id 2, .tick t.id 3, .tick t.id 4,
           .cleared t.id, .removed t.id, .tick t.id 5,
           .finish t.id 5 .maxDuration]
        ∧ redisGet (redisRun t.id ((cfg.intervalMinutes : Int) * 60000) st' true t0 n).1
            t.id = none
        ∧ (∀ tc : Nat,
            TimerEv.tick t.id tc ∈
              (redisRun t.id ((cfg.intervalMinutes : Int) * 60000) st' true t0 n).2.2 →
            (tc : Int) * ((cfg.intervalMinutes : Int) * 60000) ≤ st.maxDurationMs)) :=
  ⟨mem_timer_lifetime_aux, redis_timer_lifetime_aux⟩

/-- Unbounded-repeat configuration for the C4 witness. -/
def cfgLife : TimerConfig :=
  { guildId := "g", channelId := "c", name := "brew"
    intervalMinutes := 1, maxRepeat := none, startedBy := "u" }

/-- The instance the C4 witness timer creates (cap `5 × 60000`). -/
def timerLife : TimerInstance :=
  { id := 1, guildId := "g", channelId := "c", name := "brew"
    intervalMinutes := 1, maxRepeat := none, triggerCount := 0
    startedAt := 0, maxDurationMs := 300000, startedBy := "u" }

/-- Witness for C4: interval 1 minute, cap 5 minutes, on empty stores. -/
theorem timer_lifetime_cap_five_ticks_witness :
    ((memRun 1 60000
        { timers := [(1, timerLife)], nextId := 2, maxDurationMs := 300000 }
        true 0 5).2.2 =
      [.tick 1 1, .tick 1 2, .tick 1 3, .tick 1 4,
       .cleared 1, .removed 1, .tick 1 5, .finish 1 5 .maxDuration])
    ∧ ((redisRun 1 60000
        { localTimers := [(1, timerLife)], meta := [(1, timerLife)]
          stopFlags := [], channelSets := [("c", [1])], nextId := 1
          maxDurationMs := 300000 }
        true 0 5).2.2 =
      [.tick 1 1, .tick 1 2, .tick 1 3, .tick 1 4,
       .cleared 1, .removed 1, .tick 1 5, .finish 1 5 .maxDuration]) :=
  ⟨(timer_lifetime_cap_five_ticks.1
      { timers := [], nextId := 1, maxDurationMs := 300000 } cfgLife 0
      { timers := [(1, timerLife)], nextId := 2, maxDurationMs := 300000 }
      timerLife (by decide) rfl rfl (by decide) (by decide) 5 (by decide)).1,
   (timer_lifetime_cap_five_ticks.2
      { localTimers := [], meta := [], stopFlags := [], channelSets := []
        nextId := 0, maxDurationMs := 300000 } cfgLife 0
      { localTimers := [(1, timerLife)], meta := [(1, timerLife)]
        stopFlags := [], channelSets := [("c", [1])], nextId := 1
        maxDurationMs := 300000 }
      timerLife (by decide) (by decide) rfl rfl rfl (by decide) (by decide)
      5 (by decide)).1⟩

/-- C5 (counterexample): on a terminating tick the source runs
`clearInterval`, then `this.timers.delete(id)` / `cleanupRedisKeys`, and
only then `onTrigger` and `onComplete`.  At a concrete one-repeat timer,
the removal event occurs at index 1 of the trace and the `onFinish`
event at index 3 — so `onFinish` does NOT fire before the entry is
removed, contrary to the claim. -/
theorem terminating_tick_removes_before_finish :
    (memTick
        { timers := [(1,
            { id := 1, guildId := "g", channelId := "c", name := "brew"
              intervalMinutes := 1, maxRepeat := some 1, triggerCount := 0
              startedAt := 0, maxDurationMs := 7200000, startedBy := "u" })]
          nextId := 2, maxDurationMs := 7200000 }
        true 1 60000 60000).2.2 =
      [.cleared 1, .removed 1, .tick 1 1, .finish 1 1 .repeatExhausted]
    ∧ List.indexOf (TimerEv.removed 1)
        (memTick
          { timers := [(1,
              { id := 1, guildId := "g", channelId := "c", name := "brew"
                intervalMinutes := 1, maxRepeat := some 1, triggerCount := 0
                startedAt := 0, maxDurationMs := 7200000, startedBy := "u" })]
            nextId := 2, maxDurationMs := 7200000 }
          true 1 60000 60000).2.2 <
      List.indexOf (TimerEv.finish 1 1 .repeatExhausted)
        (memTick
          { timers := [(1,
              { id := 1, guildId := "g", channelId := "c", name := "brew"
                intervalMinutes := 1, maxRepeat := some 1, triggerCount := 0
                startedAt := 0, maxDurationMs := 7200000, startedBy := "u" })]
            nextId := 2, maxDurationMs := 7200000 }
          true 1 60000 60000).2.2 := by
  decide

/-- C5 (amended): on a terminating tick — occurrence count reached its
maximum, or the lifetime cap would be exceeded by the next tick — the
driver halts and removes the timer entry from the store, and then fires
the final `onTick` followed by `onFinish` with the corresponding reason,
exactly once; on both backends (`stop` itself never fires callbacks). -/
theorem terminating_tick_halt_remove_then_finish :
    (∀ (s : MemTimerStore) (running : Bool) (id : Nat) (i now : Int),
      (∃ tc r, TimerEv.finish id tc r ∈ (memTick s running id i now).2.2) →
      ∃ t : TimerInstance, mapLookup s.timers id = some t ∧ running = true ∧
        (memTick s running id i now).2.2 =
          [.cleared id, .removed id, .tick id (t.triggerCount + 1),
           .finish id (t.triggerCount + 1)
             (if maxRepeatReached t.maxRepeat (t.triggerCount + 1)
              then .repeatExhausted else .maxDuration)] ∧
        (maxRepeatReached t.maxRepeat (t.triggerCount + 1) = true ∨
          t.maxDurationMs < now - t.startedAt + i))
    ∧ (∀ (st : RedisTimerState) (running : Bool) (id : Nat) (i now : Int),
      (∃ tc r, TimerEv.finish id tc r ∈ (redisTick st running id i now).2.2) →
      ∃ t : TimerInstance, mapLookup st.localTimers id = some t ∧ running = true ∧
        stopFlagExists st id now = false ∧
        (redisTick st running id i now).2.2 =
          [.cleared id, .removed id, .tick id (t.triggerCount + 1),
           .finish id (t.triggerCount + 1)
             (if maxRepeatReached t.maxRepeat (t.triggerCount + 1)
              then .repeatExhausted else .maxDuration)] ∧
        (maxRepeatReached t.maxRepeat (t.triggerCount + 1) = true ∨
          t.maxDurationMs < now - t.startedAt + i)) := by
  constructor
  · intro s running id i now hfin
    obtain ⟨tc, r, hmem⟩ := hfin
    cases running with
    | false => exact absurd hmem (by simp [memTick])
    | true =>
        cases hl : mapLookup s.timers id with
        | none =>
            rw [show (memTick s true id i now).2.2 = [.cleared id] by
              simp [memTick, hl]] at hmem
            exact absurd hmem (by simp)
        | some t =>
            refine ⟨t, rfl, rfl, ?_⟩
            by_cases hrep : maxRepeatReached t.maxRepeat (t.triggerCount + 1) = true
            · rw [memTick_repeat_end s id i now t hl hrep]
              simp [hrep]
            · rw [Bool.not_eq_true] at hrep
              by_cases hdur : t.maxDurationMs < now - t.startedAt + i
              · rw [memTick_duration_end s id i now t hl hrep hdur]
                simp [hrep]
                exact hdur
              · rw [memTick_normal s id i now t hl hrep hdur] at hmem
                exact absurd hmem (by simp)
  · intro st running id i now hfin
    obtain ⟨tc, r, hmem⟩ := hfin
    cases running with
    | false => exact absurd hmem (by simp [redisTick])
    | true =>
        cases hflag : stopFlagExists st id now with
        | true =>
            rw [show (redisTick st true id i now).2.2 = [.cleared id] by
              simp [redisTick, hflag]] at hmem
            exact absurd hmem (by simp)
        | false =>
            cases hl : mapLookup st.localTimers id with
            | none =>
                rw [show (redisTick st true id i now).2.2 = [.cleared id] by
                  simp [redisTick, hflag, hl]] at hmem
                exact absurd hmem (by simp)
            | some t =>
                refine ⟨t, rfl, rfl, rfl, ?_⟩
                by_cases hrep : maxRepeatReached t.maxRepeat (t.triggerCount + 1) = true
                · rw [redisTick_repeat_end st id i now t hflag hl hrep]
                  simp [hrep]
                · rw [Bool.not_eq_true] at hrep
                  by_cases hdur : t.maxDurationMs < now - t.startedAt + i
                  · rw [redisTick_duration_end st id i now t hflag hl hrep hdur]
                    simp [hrep]
                    exact hdur
                  · rw [redisTick_normal st id i now t hflag hl hrep hdur] at hmem
                    exact absurd hmem (by simp)

/-- Witness for the amended C5 at the concrete one-repeat timer. -/
theorem terminating_tick_halt_remove_then_finish_witness :
    ∃ t : TimerInstance,
      mapLookup ([(1,
        { id := 1, guildId := "g", channelId := "c", name := "brew"
          intervalMinutes := 1, maxRepeat := some 1, triggerCount := 0
          startedAt := 0, maxDurationMs := 7200000, startedBy := "u" })] :
          List (Nat × TimerInstance)) 1 = some t ∧ true = true ∧
      (memTick
        { timers := [(1,
            { id := 1, guildId := "g", channelId := "c", name := "brew"
              intervalMinutes := 1, maxRepeat := some 1, triggerCount := 0
              startedAt := 0, maxDurationMs := 7200000, startedBy := "u" })]
          nextId := 2, maxDurationMs := 7200000 }
        true 1 60000 60000).2.2 =
        [.cleared 1, .removed 1, .tick 1 (t.triggerCount + 1),
         .finish 1 (t.triggerCount + 1)
           (if maxRepeatReached t.maxRepeat (t.triggerCount + 1)
            then .repeatExhausted else .maxDuration)] ∧
      (maxRepeatReached t.maxRepeat (t.triggerCount + 1) = true ∨
        t.maxDurationMs < 60000 - t.startedAt + 60000) :=
  terminating_tick_halt_remove_then_finish.1
    { timers := [(1,
        { id := 1, guildId := "g", channelId := "c", name := "brew"
          intervalMinutes := 1, maxRepeat := some 1, triggerCount := 0
          startedAt := 0, maxDurationMs := 7200000, startedBy := "u" })]
      nextId := 2, maxDurationMs := 7200000 }
    true 1 60000 60000 ⟨1, .repeatExhausted, by decide⟩

/-- After a tick that fired `onComplete`, the memory store has the entry
deleted. -/
theorem memTick_finish_state (s : MemTimerStore) (running : Bool) (id : Nat)
    (i now : Int)
    (hfin : ∃ tc r, TimerEv.finish id tc r ∈ (memTick s running id i now).2.2) :
    (memTick s running id i now).1 = { s with timers := mapDelete s.timers id } := by
  obtain ⟨tc, r, hmem⟩ := hfin
  cases running with
  | false => exact absurd hmem (by simp [memTick])
  | true =>
      cases hl : mapLookup s.timers id with
      | none =>
          rw [show (memTick s true id i now).2.2 = [.cleared id] by
            simp [memTick, hl]] at hmem
          exact absurd hmem (by simp)
      | some t =>
          by_cases hrep : maxRepeatReached t.maxRepeat (t.triggerCount + 1) = true
          · rw [memTick_repeat_end s id i now t hl hrep]
          · rw [Bool.not_eq_true] at hrep
            by_cases hdur : t.maxDurationMs < now - t.startedAt + i
            · rw [memTick_duration_end s id i now t hl hrep hdur]
            · rw [memTick_normal s id i now t hl hrep hdur] at hmem
              exact absurd hmem (by simp)

/-- After a tick that fired `onComplete`, the Redis store has the local
entry and the shared metadata deleted (`cleanupRedisKeys`). -/
theorem redisTick_finish_state (st : RedisTimerState) (running : Bool)
    (id : Nat) (i now : Int)
    (hfin : ∃ tc r, TimerEv.finish id tc r ∈ (redisTick st running id i now).2.2) :
    ∃ ch, (redisTick st running id i now).1 =
      sremChannel
        { st with localTimers := mapDelete st.localTimers id
                  meta := mapDelete st.meta id } ch id := by
  obtain ⟨tc, r, hmem⟩ := hfin
  cases running with
  | false => exact absurd hmem (by simp [redisTick])
  | true =>
      cases hflag : stopFlagExists st id now with
      | true =>
          rw [show (redisTick st true id i now).2.2 = [.cleared id] by
            simp [redisTick, hflag]] at hmem
          exact absurd hmem (by simp)
      | false =>
          cases hl : mapLookup st.localTimers id with
          | none =>
              rw [show (redisTick st true id i now).2.2 = [.cleared id] by
                simp [redisTick, hflag, hl]] at hmem
              exact absurd hmem (by simp)
          | some t =>
              refine ⟨t.channelId, ?_⟩
              by_cases hrep : maxRepeatReached t.maxRepeat (t.triggerCount + 1) = true
              · rw [redisTick_repeat_end st id i now t hflag hl hrep]
              · rw [Bool.not_eq_true] at hrep
                by_cases hdur : t.maxDurationMs < now - t.startedAt + i
                · rw [redisTick_duration_end st id i now t hflag hl hrep hdur]
                · rw [redisTick_normal st id i now t hflag hl hrep hdur] at hmem
                  exact absurd hmem (by simp)

/-- C8: stopping is idempotent on both backends.  A second `stop(id)`
after a successful stop — or after the timer completed naturally —
returns absent and leaves the store state exactly unchanged; `stop`
never invokes `onTrigger`/`onComplete` (its embedding emits no events),
so no second `onFinish` can occur. -/
theorem stop_idempotent :
    (∀ (s s' : MemTimerStore) (id : Nat) (t : TimerInstance),
      mapWF s.timers → memStop s id = (some t, s') →
      memStop s' id = (none, s'))
    ∧ (∀ (s : MemTimerStore) (running : Bool) (id : Nat) (i now : Int),
      mapWF s.timers →
      (∃ tc r, TimerEv.finish id tc r ∈ (memTick s running id i now).2.2) →
      memStop (memTick s running id i now).1 id =
        (none, (memTick s running id i now).1))
    ∧ (∀ (st st' : RedisTimerState) (id : Nat) (t : TimerInstance) (now now' : Int),
      mapWF st.localTimers → mapWF st.meta →
      redisStop st id now = (some t, st') →
      redisStop st' id now' = (none, st'))
    ∧ (∀ (st : RedisTimerState) (running : Bool) (id : Nat) (i now now' : Int),
      mapWF st.localTimers → mapWF st.meta →
      (∃ tc r, TimerEv.finish id tc r ∈ (redisTick st running id i now).2.2) →
      redisStop (redisTick st running id i now).1 id now' =
        (none, (redisTick st running id i now).1)) := by
  refine ⟨?_, ?_, ?_, ?_⟩
  · intro s s' id t hwf hstop
    unfold memStop at hstop
    cases hl : mapLookup s.timers id with
    | none => rw [hl] at hstop; exact absurd hstop (by simp)
    | some t0 =>
        rw [hl] at hstop
        simp only at hstop
        obtain ⟨ht, hs⟩ := Prod.mk.inj hstop
        subst hs
        unfold memStop
        simp only
        rw [mapLookup_mapDelete_self _ _ hwf]
  · intro s running id i now hwf hfin
    rw [memTick_finish_state s running id i now hfin]
    unfold memStop
    simp only
    rw [mapLookup_mapDelete_self _ _ hwf]
  · intro st st' id t now now' hwfL hwfM hstop
    unfold redisStop at hstop
    cases hl : mapLookup st.localTimers id with
    | none =>
        rw [hl] at hstop
        cases hm : mapLookup st.meta id with
        | none => rw [hm] at hstop; exact absurd hstop (by simp)
        | some m =>
            rw [hm] at hstop
            simp only at hstop
            obtain ⟨ht, hs⟩ := Prod.mk.inj hstop
            subst hs
            unfold redisStop
            rw [show (cleanupRedisKeys
                { st with stopFlags := mapSet st.stopFlags id (now + 60000) }
                id m.channelId).localTimers = st.localTimers from
              (sremChannel_localTimers _ _ _)]
            rw [hl]
            rw [show (cleanupRedisKeys
                { st with stopFlags := mapSet st.stopFlags id (now + 60000) }
                id m.channelId).meta = mapDelete st.meta id from
              (sremChannel_meta _ _ _)]
            rw [mapLookup_mapDelete_self _ _ hwfM]
    | some t0 =>
        rw [hl] at hstop
        simp only at hstop
        obtain ⟨ht, hs⟩ := Prod.mk.inj hstop
        subst hs
        unfold redisStop
        rw [show (cleanupRedisKeys
            { st with localTimers := mapDelete st.localTimers id
                      stopFlags := mapSet st.stopFlags id (now + 60000) }
            id t0.channelId).localTimers = mapDelete st.localTimers id from
          (sremChannel_localTimers _ _ _)]
        rw [mapLookup_mapDelete_self _ _ hwfL]
        rw [show (cleanupRedisKeys
            { st with localTimers := mapDelete st.localTimers id
                      stopFlags := mapSet st.stopFlags id (now + 60000) }
            id t0.channelId).meta = mapDelete st.meta id from
          (sremChannel_meta _ _ _)]
        rw [mapLookup_mapDelete_self _ _ hwfM]
  · intro st running id i now now' hwfL hwfM hfin
    obtain ⟨ch, hst⟩ := redisTick_finish_state st running id i now hfin
    rw [hst]
    unfold redisStop
    rw [show (sremChannel
        { st with localTimers := mapDelete st.localTimers id
                  meta := mapDelete st.meta id } ch id).localTimers =
        mapDelete st.localTimers id from (sremChannel_localTimers _ _ _)]
    rw [mapLookup_mapDelete_self _ _ hwfL]
    rw [show (sremChannel
        { st with localTimers := mapDelete st.localTimers id
                  meta := mapDelete st.meta id } ch id).meta =
        mapDelete st.meta id from (sremChannel_meta _ _ _)]
    rw [mapLookup_mapDelete_self _ _ hwfM]

/-- Witness for C8: double stop at concrete stores on both backends. -/
theorem stop_idempotent_witness :
    memStop { timers := [], nextId := 2, maxDurationMs := 7200000 } 1 =
      (none, { timers := [], nextId := 2, maxDurationMs := 7200000 })
    ∧ redisStop
        { localTimers := [], meta := [], stopFlags := [(1, 60005)]
          channelSets := [("c", [])], nextId := 1, maxDurationMs := 7200000 }
        1 99 =
      (none,
       { localTimers := [], meta := [], stopFlags := [(1, 60005)]
         channelSets := [("c", [])], nextId := 1, maxDurationMs := 7200000 }) :=
  ⟨stop_idempotent.1
      { timers := [(1, timerBrew)], nextId := 2, maxDurationMs := 7200000 }
      { timers := [], nextId := 2, maxDurationMs := 7200000 } 1 timerBrew
      (by decide) rfl,
   stop_idempotent.2.2.1
      { localTimers := [(1, timerBrew)], meta := [(1, timerBrew)]
        stopFlags := [], channelSets := [("c", [1])], nextId := 1
        maxDurationMs := 7200000 }
      { localTimers := [], meta := [], stopFlags := [(1, 60005)]
        channelSets := [("c", [])], nextId := 1, maxDurationMs := 7200000 }
      1 timerBrew 5 99 (by decide) (by decide) rfl⟩

/-! ## Shared-backend key namespacing

`RedisRollStore.rollKey` (above) is the roll-key builder from
`src/src/lib/redis-roll-store.ts`.  The timer-key builders below are
*modelled from the spec*: the repository's current `redis-timer-store.ts`
— the version whose constructor takes the `keyPrefix` that
`createStores` passes (`new RedisTimerStore(redis, undefined,
keyPrefix)`) — is not among the provided sources; only its caller
(`store-factory.ts`) and its tests are.  Spec §6 gives the key layout
`{prefix}:timer:{id}`, the scope set (`{prefix}:timer:scope:{scopeId}`,
realised as the channel set `{prefix}:timer:channel:{channelId}`),
`{prefix}:timer:nextid` and `{prefix}:timer:stop:{id}`. -/

/-- Modelled from the spec: `{prefix}:timer:{id}` (JSON metadata). -/
def timerKeyOf (pre : String) (id : Nat) : String :=
  pre ++ ":timer:" ++ toString id

/-- Modelled from the spec: the per-scope live-timer set,
`{prefix}:timer:channel:{channelId}`. -/
def timerChannelKeyOf (pre ch : String) : String :=
  pre ++ ":timer:channel:" ++ ch

/-- Modelled from the spec: `{prefix}:timer:nextid` (monotonic counter). -/
def timerNextIdKeyOf (pre : String) : String :=
  pre ++ ":timer:nextid"

/-- Modelled from the spec: `{prefix}:timer:stop:{id}` (stop marker). -/
def timerStopKeyOf (pre : String) (id : Nat) : String :=
  pre ++ ":timer:stop:" ++ toString id

/-- C6 (counterexample): with a prefix that itself contains the `:roll:`
separator, two deployments with *different* prefixes write the *same*
key: `rollKey` under prefix `"a"` for roll id `"b:roll:c"` equals
`rollKey` under prefix `"a:roll:b"` for roll id `"c"`. -/
theorem key_prefix_collision :
    RedisRollStore.rollKey
        ({ kv := [], ttlMs := 600000, keyPrefix := "a" } : RedisRollStore Unit)
        "b:roll:c" =
      RedisRollStore.rollKey
        ({ kv := [], ttlMs := 600000, keyPrefix := "a:roll:b" } : RedisRollStore Unit)
        "c"
    ∧ ("a" : String) ≠ "a:roll:b" := by
  constructor
  · rfl
  · decide

theorem colonFree_append_inj (p1 : List Char) :
    ∀ (p2 s1 s2 : List Char), ':' ∉ p1 → ':' ∉ p2 →
      p1 ++ ':' :: s1 = p2 ++ ':' :: s2 → p1 = p2 := by
  induction p1 with
  | nil =>
      intro p2 s1 s2 _ h2 he
      cases p2 with
      | nil => rfl
      | cons d p2' =>
          simp only [List.nil_append, List.cons_append, List.cons.injEq] at he
          exact absurd (by simp [← he.1]) h2
  | cons c p1' ih =>
      intro p2 s1 s2 h1 h2 he
      cases p2 with
      | nil =>
          simp only [List.cons_append, List.nil_append, List.cons.injEq] at he
          exact absurd (by simp [he.1]) h1
      | cons d p2' =>
          simp only [List.cons_append, List.cons.injEq] at he
          have hc : c = d := he.1
          subst hc
          have := ih p2' s1 s2 (fun h => h1 (List.mem_cons_of_mem _ h))
            (fun h => h2 (List.mem_cons_of_mem _ h)) he.2
          rw [this]

/-- C6 (amended): every key the shared backend writes is of the form
`prefix ++ ":" ++ suffix` for its deployment prefix — roll keys from the
source, timer keys from the spec-modelled layout — and two deployments
whose (distinct) prefixes contain no `':'` separator, as the default
`"doomanddastardlies"` does not, never write the same key, across all
key families.  (With a prefix containing `':'`, collisions are possible —
see the counterexample.) -/
theorem keys_namespaced_and_disjoint :
    (∀ (ρ : Type) (s : RedisRollStore ρ) (rollId : String),
      s.rollKey rollId = s.keyPrefix ++ ":" ++ ("roll:" ++ rollId))
    ∧ (∀ (pre : String) (id : Nat),
      timerKeyOf pre id = pre ++ ":" ++ ("timer:" ++ toString id))
    ∧ (∀ (pre ch : String),
      timerChannelKeyOf pre ch = pre ++ ":" ++ ("timer:channel:" ++ ch))
    ∧ (∀ pre : String, timerNextIdKeyOf pre = pre ++ ":" ++ "timer:nextid")
    ∧ (∀ (pre : String) (id : Nat),
      timerStopKeyOf pre id = pre ++ ":" ++ ("timer:stop:" ++ toString id))
    ∧ (∀ (p1 p2 s1 s2 : String), ':' ∉ p1.data → ':' ∉ p2.data → p1 ≠ p2 →
      p1 ++ ":" ++ s1 ≠ p2 ++ ":" ++ s2) := by
  refine ⟨?_, ?_, ?_, ?_, ?_, ?_⟩
  · intro ρ s rollId
    apply String.ext
    simp [RedisRollStore.rollKey, String.data_append]
  · intro pre id
    apply String.ext
    simp [timerKeyOf, String.data_append]
  · intro pre ch
    apply String.ext
    simp [timerChannelKeyOf, String.data_append]
  · intro pre
    apply String.ext
    simp [timerNextIdKeyOf, String.data_append]
  · intro pre id
    apply String.ext
    simp [timerStopKeyOf, String.data_append]
  · intro p1 p2 s1 s2 h1 h2 hne he
    apply hne
    have hd := congrArg String.data he
    rw [String.data_append, String.data_append, String.data_append,
      String.data_append] at hd
    have hd' : p1.data ++ ':' :: s1.data = p2.data ++ ':' :: s2.data := by
      simpa using hd
    exact String.ext (colonFree_append_inj p1.data p2.data s1.data s2.data
      h1 h2 hd')

/-- Witness for the amended C6: two colon-free prefixes, keys from two
different families, no collision. -/
theorem keys_namespaced_and_disjoint_witness :
    ("alpha" : String) ++ ":" ++ "roll:x" ≠ ("beta" : String) ++ ":" ++ "timer:1" :=
  keys_namespaced_and_disjoint.2.2.2.2.2 "alpha" "beta" "roll:x" "timer:1"
    (by decide) (by decide) (by decide)

end DnD
